import Mathlib

/-!
Verification of the plot-thread core against its source.

This file shallowly embeds the Go sources of the believerse/plot-thread
repository: the proof-of-work arithmetic and tip comparison (plot.go
fragment), the interaction series rule (interaction.go fragment), the
id JSON unmarshalling, the in-memory interaction queue
(interaction_queue_memory.go), the PageRank graph (indexer.go) and the
differential plot-header hasher (plot_header_hasher.go).

Modelling conventions:
- machine bytes are Nat values (0..255), byte strings are List Nat;
- Go big.Int views of 32-byte ids are Nat values; GetBigInt is the
  big-endian fold, SetBigInt fails (Go: panics) at 2^256;
- Go int64/int32 fields are Int (overflow of these fields is never
  exercised by the claims);
- SHA3-256 is an uninterpreted parameter (hash32 : List Nat → List Nat):
  every claim about hashing is proved for an arbitrary hash function,
  which is exactly what byte-level buffer equivalence gives;
- Go integer division truncates toward zero, embedded as Int.tdiv.
-/

namespace PlotThread

/-- GetBigInt converts a 32-byte id to a big.Int: big-endian byte fold
(source: PlotID.GetBigInt, new(big.Int).SetBytes(id[:])). -/
def getBigInt (id : List Nat) : Nat :=
  id.foldl (fun acc b => acc * 256 + b) 0

/-- Modelled from the spec: PLOTS_UNTIL_NEW_SERIES is a protocol constant not
present in the supplied fragments (spec 6.4 defers to the upstream value; the
series advances roughly weekly, the upstream value is 1008). No claim below
depends on the exact value, only on it being larger than 100. -/
def PLOTS_UNTIL_NEW_SERIES : Int := 1008

/-- Compute the series to use for a new interaction
(source: computeInteractionSeries). Go integer division truncates toward
zero, hence Int.tdiv. -/
def computeInteractionSeries (isPlotroot : Bool) (height : Int) : Int :=
  if isPlotroot then
    Int.tdiv height PLOTS_UNTIL_NEW_SERIES + 1
  else
    Int.tdiv (height - 100) PLOTS_UNTIL_NEW_SERIES + 1

/-- Compute plot work given its target, at the big-int view level
(source: computePlotWork). Targets are 256-bit unsigned values;
work = 2^256 / (target+1), and 0 for target = 0. -/
def computePlotWork (target : Nat) : Nat :=
  if target ≤ 0 then 0
  else (2 ^ 256) / (target + 1)

/-- SetBigInt converts a big.Int to a 32-byte PlotID; the source panics
("Too much work") when the integer needs more than 32 bytes. The panic is
modelled as none (source: PlotID.SetBigInt). -/
def setBigInt (i : Nat) : Option Nat :=
  if i < 2 ^ 256 then some i else none

/-- Compute cumulative thread work given a plot's target and the previous
thread work (source: computeThreadWork); the final SetBigInt panics on
overflow, modelled as none. -/
def computeThreadWork (target threadWork : Nat) : Option Nat :=
  setBigInt (threadWork + computePlotWork target)

/-! ### Id text form (hex) and JSON unmarshalling -/

/-- Value of one hexadecimal digit byte, as Go encoding/hex fromHexChar:
0-9, a-f and A-F are accepted. -/
def fromHexChar (c : Nat) : Option Nat :=
  if 48 ≤ c ∧ c ≤ 57 then some (c - 48)
  else if 97 ≤ c ∧ c ≤ 102 then some (c - 97 + 10)
  else if 65 ≤ c ∧ c ≤ 70 then some (c - 65 + 10)
  else none

/-- Go encoding/hex DecodeString: pairs of hex digit bytes to bytes; an odd
length or a non-hex byte is an error (none). -/
def hexDecode : List Nat → Option (List Nat)
  | [] => some []
  | [_] => none
  | c1 :: c2 :: rest =>
    match fromHexChar c1, fromHexChar c2, hexDecode rest with
    | some h1, some h2, some bs => some ((h1 * 16 + h2) :: bs)
    | _, _, _ => none

/-- InteractionID.UnmarshalJSON: the input must be 64+2 bytes; bytes
b[1 : len(b)-1] are hex-decoded into the id; the outer two bytes are never
inspected. -/
def unmarshalInteractionID (b : List Nat) : Option (List Nat) :=
  if b.length ≠ 64 + 2 then none
  else
    match hexDecode ((b.drop 1).take (b.length - 2)) with
    | none => none
    | some idBytes => some idBytes

/-- PlotID.UnmarshalJSON: same shape as InteractionID.UnmarshalJSON. -/
def unmarshalPlotID (b : List Nat) : Option (List Nat) :=
  if b.length ≠ 64 + 2 then none
  else
    match hexDecode ((b.drop 1).take (b.length - 2)) with
    | none => none
    | some idBytes => some idBytes

/-! ### Interactions -/

/-- A ledger interaction (source: Interaction struct). Byte strings are
List Nat; Go int64/int32 fields are Int. -/
structure Interaction where
  time : Int
  nonce : Int
  from_ : List Nat
  to_ : List Nat
  memo : String
  matures : Int
  expires : Int
  series : Int
  signature : List Nat
deriving DecidableEq

/-- The distinguished plotroot sender: 32 zero bytes
(base64 "AAAAAAAAAAAAAAAAAAAAAAAAAAAAAAAAAAAAAAAAAAA="). -/
def zeroPubKey : List Nat := List.replicate 32 0

/-- Interaction.IsPlotroot: the sender equals the zero key. -/
def Interaction.IsPlotroot (tx : Interaction) : Bool := tx.from_ = zeroPubKey

/-- NewInteraction returns a new unsigned interaction; the system time and
the random nonce are explicit arguments of the embedding. -/
def NewInteraction (from_ to_ : List Nat) (matures expires height : Int)
    (memo : String) (time nonce : Int) : Interaction :=
  { time := time, nonce := nonce, from_ := from_, to_ := to_, memo := memo,
    matures := matures, expires := expires,
    series := computeInteractionSeries (from_ = zeroPubKey) height,
    signature := [] }

/-! ### The in-memory interaction queue (interaction_queue_memory.go) -/

/-- ASCII bytes of a string literal. -/
def strBytes (s : String) : List Nat := s.toList.map Char.toNat

/-- Lowercase hex digit byte, as Go encoding/hex. -/
def hexDigitChar (n : Nat) : Nat := if n < 10 then 48 + n else 87 + n

/-- Go hex.Encode / hex.EncodeToString of a byte string (lowercase). -/
def hexEnc (bytes : List Nat) : List Nat :=
  bytes.flatMap (fun b => [hexDigitChar (b / 16), hexDigitChar (b % 16)])

/-- The standard base64 alphabet. -/
def base64Chars : List Nat :=
  strBytes "ABCDEFGHIJKLMNOPQRSTUVWXYZabcdefghijklmnopqrstuvwxyz0123456789+/"

/-- One base64 alphabet byte. -/
def b64c (n : Nat) : Nat := base64Chars.getD n 65

/-- Go base64.StdEncoding.EncodeToString: 3-byte groups to 4 characters,
padded with = (byte 61). -/
def base64Encode : List Nat → List Nat
  | [] => []
  | [b1] => [b64c (b1 / 4), b64c (b1 % 4 * 16), 61, 61]
  | [b1, b2] => [b64c (b1 / 4), b64c (b1 % 4 * 16 + b2 / 16), b64c (b2 % 16 * 4), 61]
  | b1 :: b2 :: b3 :: rest =>
    b64c (b1 / 4) :: b64c (b1 % 4 * 16 + b2 / 16) ::
      b64c (b2 % 16 * 4 + b3 / 64) :: b64c (b3 % 64) :: base64Encode rest

/-- The in-memory FIFO interaction queue. Go keeps a doubly linked list
txQueue of interactions plus a map txMap from id to list element; the two are
kept in lock-step (every Add/AddBatch/RemoveBatch writes both), so the
embedding stores one association list from id to interaction, ordered front
to back; txMap membership is membership of the id component. The imbalance
cache is a type parameter because imbalance_cache.go is not among the
supplied fragments; its Apply is an explicit function argument where
needed. -/
structure InteractionQueueMemory (C : Type) where
  txQueue : List (List Nat × Interaction)
  imbalanceCache : C
deriving DecidableEq

/-- The ids currently in the queue (the keys of Go's txMap). -/
def queueIds {C : Type} (q : InteractionQueueMemory C) : List (List Nat) :=
  q.txQueue.map Prod.fst

/-- Result of InteractionQueueMemory.Add: the new queue state, the added
flag, and the error (as its message bytes). -/
structure AddResult (C : Type) where
  queue : InteractionQueueMemory C
  added : Bool
  err : Option (List Nat)

/-- The message of the error returned by Add on insufficient imbalance
(source: fmt.Errorf("Interaction %s sender %s has insufficient imbalance",
id, base64 of tx.From)). -/
def insufficientImbalanceMsg (id : List Nat) (tx : Interaction) : List Nat :=
  strBytes "Interaction " ++ hexEnc id ++ strBytes " sender " ++
    base64Encode tx.from_ ++ strBytes " has insufficient imbalance"

/-- InteractionQueueMemory.Add. applyFn embeds ImbalanceCache.Apply
(modelled from the spec, 4.5: it returns ok plus a possible ledger-lookup
error, modelled as the none case). -/
def InteractionQueueMemory.Add {C : Type}
    (applyFn : C → Interaction → Option (C × Bool))
    (q : InteractionQueueMemory C) (id : List Nat) (tx : Interaction) :
    AddResult C :=
  if id ∈ queueIds q then ⟨q, false, none⟩
  else
    match applyFn q.imbalanceCache tx with
    | none => ⟨q, false, some (strBytes "imbalance cache error")⟩
    | some (c, false) =>
      ⟨⟨q.txQueue, c⟩, false, some (insufficientImbalanceMsg id tx)⟩
    | some (c, true) => ⟨⟨q.txQueue ++ [(id, tx)], c⟩, true, none⟩

/-- One step of AddBatch: remove any queued entry carrying this id (Go
removes the single element found through txMap; the queue holds at most one
entry per id) and push the pair to the front. -/
def addBatchStep {C : Type} (p : List Nat × Interaction)
    (q' : InteractionQueueMemory C) : InteractionQueueMemory C :=
  ⟨p :: q'.txQueue.filter (fun e => e.1 ≠ p.1), q'.imbalanceCache⟩

/-- InteractionQueueMemory.AddBatch: iterates i from len(txs)-1 down to 0,
removing any queued entry with id ids[i] and pushing (ids[i], txs[i]) to the
front; the height argument is not used by the source either. No
series/maturity/expiry/imbalance check is performed. -/
def InteractionQueueMemory.AddBatch {C : Type}
    (q : InteractionQueueMemory C) (ids : List (List Nat))
    (txs : List Interaction) (height : Int) : InteractionQueueMemory C :=
  (ids.zip txs).reverse.foldl (fun q' p => addBatchStep p q') q

/-! ### Plot headers, canonical JSON and tip comparison -/

/-- A plot header (source: PlotHeader struct). Ids are byte strings, the
numeric fields are Go int64/int32 embedded as Int. -/
structure PlotHeader where
  previous : List Nat
  hashListRoot : List Nat
  time : Int
  target : List Nat
  threadWork : List Nat
  nonce : Int
  height : Int
  interactionCount : Int
deriving DecidableEq

/-- Decimal digit bytes of a Nat, most significant first (fuel-based; the
fuel n+1 always suffices). -/
def natDecAux : Nat → Nat → List Nat
  | 0, _ => []
  | _ + 1, n =>
    if n < 10 then [48 + n]
    else natDecAux n (n / 10) ++ [48 + n % 10]

/-- Decimal digit bytes of a Nat. -/
def natDec (n : Nat) : List Nat := natDecAux (n + 1) n

/-- Minimal decimal ASCII bytes of an integer, as Go strconv.AppendInt
base 10 (45 is the minus sign). -/
def decEnc (i : Int) : List Nat :=
  if i < 0 then 45 :: natDec (-i).toNat
  else natDec i.toNat

/-- JSON fragment before the previous id (source: hdrPrevious). -/
def hdrPreviousB : List Nat := strBytes "\x7b\"previous\":\""

/-- JSON fragment before the hash list root (source: hdrHashListRoot). -/
def hdrHashListRootB : List Nat := strBytes "\",\"hash_list_root\":\""

/-- JSON fragment before the time (source: hdrTime). -/
def hdrTimeB : List Nat := strBytes "\",\"time\":"

/-- JSON fragment before the target (source: hdrTarget). -/
def hdrTargetB : List Nat := strBytes ",\"target\":\""

/-- JSON fragment before the thread work (source: hdrThreadWork). -/
def hdrThreadWorkB : List Nat := strBytes "\",\"thread_work\":\""

/-- JSON fragment before the nonce (source: hdrNonce). -/
def hdrNonceB : List Nat := strBytes "\",\"nonce\":"

/-- JSON fragment before the height (source: hdrHeight). -/
def hdrHeightB : List Nat := strBytes ",\"height\":"

/-- JSON fragment before the interaction count (source: hdrInteractionCount). -/
def hdrInteractionCountB : List Nat := strBytes ",\"interaction_count\":"

/-- Closing brace (source: hdrEnd). -/
def hdrEndB : List Nat := strBytes "\x7d"

/-- The canonical JSON bytes of a plot header: Go encoding/json Marshal of
the PlotHeader struct, whose field order and formatting are fixed (ids as
lowercase hex in quotes, integers as minimal decimals). -/
def serializeHeader (h : PlotHeader) : List Nat :=
  hdrPreviousB ++ hexEnc h.previous ++
    hdrHashListRootB ++ hexEnc h.hashListRoot ++
    hdrTimeB ++ decEnc h.time ++
    hdrTargetB ++ hexEnc h.target ++
    hdrThreadWorkB ++ hexEnc h.threadWork ++
    hdrNonceB ++ decEnc h.nonce ++
    hdrHeightB ++ decEnc h.height ++
    hdrInteractionCountB ++ decEnc h.interactionCount ++
    hdrEndB

/-- PlotHeader.ID: SHA3-256 of the canonical JSON of the header; the hash
function is an uninterpreted parameter. -/
def headerID (hash32 : List Nat → List Nat) (h : PlotHeader) : List Nat :=
  hash32 (serializeHeader h)

/-- PlotHeader.Compare: true when this header indicates a better thread.
Most cumulative work wins; a tie goes to the plot stored first; a remaining
tie goes to the lesser id as a big-endian integer. -/
def PlotHeader.Compare (hash32 : List Nat → List Nat)
    (header theirHeader : PlotHeader) (thisWhen theirWhen : Int) : Bool :=
  let thisWorkInt := getBigInt header.threadWork
  let theirWorkInt := getBigInt theirHeader.threadWork
  if thisWorkInt > theirWorkInt then true
  else if thisWorkInt < theirWorkInt then false
  else if thisWhen < theirWhen then true
  else if thisWhen > theirWhen then false
  else decide (getBigInt (headerID hash32 header) <
    getBigInt (headerID hash32 theirHeader))

/-! ### Plots and the hash list root (plot.go fragment) -/

/-- Modelled from the spec: MAX_INTERACTIONS_PER_PLOT is a protocol constant
not present in the supplied fragments (spec 6.4 defers to the upstream
value). No claim below depends on the exact value. -/
def MAX_INTERACTIONS_PER_PLOT : Nat := 32767

/-- Big-endian 32-byte encoding of a Nat (left zero padded). -/
def natToBytesBE : Nat → Nat → List Nat
  | 0, _ => []
  | k + 1, n => natToBytesBE k (n / 256) ++ [n % 256]

/-- PlotID.SetBigInt at the byte level: 32-byte big-endian value; the source
panics ("Too much work") when the integer needs more than 32 bytes,
modelled as none. setBigInt is its big-int view projection. -/
def setBigIntBytes (i : Nat) : Option (List Nat) :=
  if i < 2 ^ 256 then some (natToBytesBE 32 i) else none

/-- A plot: header, interaction list, and the running hasher state kept by
the scriber. The running SHA3 state is embedded as the byte stream absorbed
so far (Go hash.Hash.Write appends to it; Sum hashes it without changing
it). -/
structure Plot where
  header : PlotHeader
  interactions : List Interaction
  hasher : List Nat

/-- addPlotrootToHashListRoot: Sum the running state (hash of the absorbed
bytes), then hash the plotroot id followed by that digest
(HashListRoot = H(TXID[0] | H(TXID[1] | ... | TXID[N-1]))). txId embeds
Interaction.ID (SHA3-256 of the interaction's canonical JSON), abstract like
hash32. -/
def addPlotrootToHashListRoot (hash32 : List Nat → List Nat)
    (txId : Interaction → List Nat) (absorbed : List Nat)
    (plotroot : Interaction) : List Nat :=
  hash32 (txId plotroot ++ hash32 absorbed)

/-- computeHashListRoot: absorb every non-plotroot id in order into the
running hasher, then mix in the plotroot. Returns the root together with the
final absorbed stream; none models the Go panic on an empty interaction
list (interactions[0] out of range). -/
def computeHashListRoot (hash32 : List Nat → List Nat)
    (txId : Interaction → List Nat) (absorbed : List Nat) :
    List Interaction → Option (List Nat × List Nat)
  | [] => none
  | plotroot :: rest =>
    let absorbed2 := absorbed ++ (rest.map txId).flatten
    some (addPlotrootToHashListRoot hash32 txId absorbed2 plotroot, absorbed2)

/-- NewPlot: reject oversized interaction lists, compute the hash list root
with a fresh hasher, build the header (system time and random nonce are
explicit arguments of the embedding) and keep the running hasher. none
models the error return and the computeThreadWork overflow panic. -/
def NewPlot (hash32 : List Nat → List Nat) (txId : Interaction → List Nat)
    (previous : List Nat) (height : Int) (target threadWork : List Nat)
    (interactions : List Interaction) (time nonce : Int) : Option Plot :=
  if interactions.length > MAX_INTERACTIONS_PER_PLOT then none
  else
    match computeHashListRoot hash32 txId [] interactions with
    | none => none
    | some (root, absorbed) =>
      match setBigIntBytes
          (getBigInt threadWork + computePlotWork (getBigInt target)) with
      | none => none
      | some tw =>
        some ⟨⟨previous, root, time, target, tw, nonce, height,
          (interactions.length : Int)⟩, interactions, absorbed⟩

/-- Plot.AddInteraction: absorb the new id into the running hasher, re-mix
the plotroot into the hash list root, append the interaction and bump the
count. none models the Go panic when the plot has no plotroot
(Interactions[0] out of range). -/
def Plot.AddInteraction (hash32 : List Nat → List Nat)
    (txId : Interaction → List Nat) (b : Plot) (id : List Nat)
    (tx : Interaction) : Option Plot :=
  match b.interactions with
  | [] => none
  | plotroot :: _ =>
    let absorbed2 := b.hasher ++ id
    some ⟨⟨b.header.previous,
        addPlotrootToHashListRoot hash32 txId absorbed2 plotroot,
        b.header.time, b.header.target, b.header.threadWork, b.header.nonce,
        b.header.height, b.header.interactionCount + 1⟩,
      b.interactions ++ [tx], absorbed2⟩

/-- Add a list of interactions one at a time through Plot.AddInteraction,
passing each interaction's own id, as the scriber does. -/
def addAll (hash32 : List Nat → List Nat) (txId : Interaction → List Nat)
    (p : Plot) (txs : List Interaction) : Option Plot :=
  txs.foldl
    (fun acc tx =>
      acc.bind (fun p' => Plot.AddInteraction hash32 txId p' (txId tx) tx))
    (some p)

/-! ### The reputation graph and PageRank (indexer.go)

Weights and rankings are Go float64 values; the embedding uses exact
rationals. On the concrete graphs appearing in the theorems below every
float64 operation Go performs is exact or cancels (weights are 0 or 1, the
normalized weights are 1, multiplications are by 1.0 and additions of 0.0),
so the rational iteration mirrors the float64 one step for step. -/

/-- Graph node and edge data (source: Graph struct). Nodes are dense
indices assigned on first sight; index is the label list in assignment
order (Go: map label to uint32 position), rankings and outbound are the
per-node fields, edges is the nested weight map with absent entries read
as 0. -/
structure Graph where
  index : List String
  rankings : List ℚ
  outbound : List ℚ
  edges : Nat → Nat → ℚ

/-- NewGraph returns an empty graph. -/
def NewGraph : Graph := ⟨[], [], [], fun _ _ => 0⟩

/-- Graph.Link: auto-create the two nodes, then add the weight to the edge
and to the source's outbound. -/
def Graph.Link (g : Graph) (source target : String) (weight : ℚ) : Graph :=
  let g1 := if source ∈ g.index then g
    else ⟨g.index ++ [source], g.rankings ++ [0], g.outbound ++ [0], g.edges⟩
  let g2 := if target ∈ g1.index then g1
    else ⟨g1.index ++ [target], g1.rankings ++ [0], g1.outbound ++ [0],
      g1.edges⟩
  let sIndex := g2.index.indexOf source
  let tIndex := g2.index.indexOf target
  ⟨g2.index, g2.rankings,
    g2.outbound.set sIndex (g2.outbound.getD sIndex 0 + weight),
    fun s t => if s = sIndex ∧ t = tIndex then g2.edges s t + weight
      else g2.edges s t⟩

/-- The initial ranking vector of Graph.Rank: every node gets 1/N. -/
def rankInit (g : Graph) : List ℚ :=
  List.replicate g.index.length (1 / (g.index.length : ℚ))

/-- The leak of one Rank iteration: alpha times the total ranking held by
nodes with zero outbound weight. -/
def rankLeak (alpha : ℚ) (g : Graph) (r : List ℚ) : ℚ :=
  alpha * ((List.range g.index.length).map
    (fun s => if g.outbound.getD s 0 = 0 then r.getD s 0 else 0)).sum

/-- One iteration of Graph.Rank: zero all rankings, push
alpha * rank[s] * normalizedWeight(s, t) along every edge of a source with
positive outbound (Go normalizes edges[s][t] / outbound[s] once before the
loop), then add (1-alpha)/N + leak/N to every node. -/
def rankStep (alpha : ℚ) (g : Graph) (r : List ℚ) : List ℚ :=
  (List.range g.index.length).map (fun t =>
    ((List.range g.index.length).map (fun s =>
      if 0 < g.outbound.getD s 0 then
        alpha * r.getD s 0 * (g.edges s t / g.outbound.getD s 0)
      else 0)).sum
    + (1 - alpha) * (1 / (g.index.length : ℚ))
    + rankLeak alpha g r * (1 / (g.index.length : ℚ)))

/-- The ranking vectors of Graph.Rank: the initial vector, then repeated
iterations. -/
def rankIter (alpha : ℚ) (g : Graph) : Nat → List ℚ
  | 0 => rankInit g
  | k + 1 => rankStep alpha g (rankIter alpha g k)

/-- The convergence measure of Graph.Rank: the sum over all nodes of the
absolute ranking change of one iteration. -/
def rankDelta (r rNew : List ℚ) : ℚ :=
  ((List.range r.length).map (fun i => |rNew.getD i 0 - r.getD i 0|)).sum

/-- Graph.Rank(alpha, epsilon) loops while the delta exceeds epsilon, so it
terminates exactly when some iteration moves the vector by at most
epsilon. -/
def RankTerminates (alpha epsilon : ℚ) (g : Graph) : Prop :=
  ∃ k, rankDelta (rankIter alpha g k) (rankIter alpha g (k + 1)) ≤ epsilon

/-- A three-node graph built by Link calls: A to B, B to C, C to B, weight 1
each. -/
def g3 : Graph := ((NewGraph.Link "A" "B" 1).Link "B" "C" 1).Link "C" "B" 1

/-! ### The differential plot-header hasher (plot_header_hasher.go)

The Go hasher keeps one mutable byte array and patches the runs belonging
to the mutable header fields in place. The embedding models the byte array
as an unbounded List Nat (writes never run out of capacity; Go preallocates
a maximal buffer) and a write of a byte string at an offset as writeAt.
Go int offsets and lengths are Int. The deviceScribing flag of Update is
constant false (the GPU path is commented out in the source). -/

/-- Write data over buf starting at off: the in-place copy/append writes
of the source, as splicing into the byte list. This matches the Go writes
exactly while every write stays within the BUF_CAP bytes the source
preallocates; the capacity itself is enforced in Update, at the operation
where the source panics when it is exceeded. -/
def writeAt (buf : List Nat) (off : Int) (data : List Nat) : List Nat :=
  buf.take off.toNat ++ data ++ buf.drop (off.toNat + data.length)

/-- PlotHeaderHasher state (source: PlotHeaderHasher struct). -/
structure PlotHeaderHasher where
  previousHashListRoot : List Nat
  previousTime : Int
  previousNonce : Int
  previousInteractionCount : Int
  hashListRootOffset : Int
  timeOffset : Int
  nonceOffset : Int
  interactionCountOffset : Int
  timeLen : Int
  nonceLen : Int
  txCountLen : Int
  initialized : Bool
  bufLen : Int
  buffer : List Nat

/-- The exact buffer size NewPlotHeaderHasher preallocates: the nine JSON
fragments plus 4*64 hex digits, 3*19 decimal digits for the three int64
runs and 10 for the int32 run. 19 and 10 digits fit every non-negative
value of those types, but a negative value adds a minus sign and can push
a run to 20 (int64) or 11 (int32) bytes, past this capacity. -/
def BUF_CAP : Nat :=
  hdrPreviousB.length + hdrHashListRootB.length + hdrTimeB.length +
    hdrTargetB.length + hdrThreadWorkB.length + hdrNonceB.length +
    hdrHeightB.length + hdrInteractionCountB.length + hdrEndB.length +
    4 * 64 + 3 * 19 + 10

/-- NewPlotHeaderHasher: an uninitialized hasher. Go preallocates a fixed
array of exactly BUF_CAP bytes whose initial contents are never read
before initBuffer fills it; the model tracks the written contents as a
list and enforces the BUF_CAP capacity at Update's hash step, where the
source's out-of-range Write panics. -/
def NewPlotHeaderHasher : PlotHeaderHasher :=
  ⟨[], 0, 0, 0, 0, 0, 0, 0, 0, 0, 0, false, 0, []⟩

/-- initBuffer: serialize the whole header into the buffer once, recording
the offsets and decimal lengths of the mutable runs exactly as the
sequential Go writes do. When the serialization is longer than BUF_CAP the
source's appends reallocate away from the preallocated array while
h.buffer keeps pointing at it, so the oversized bufLen makes the next
hash step panic; Update models that panic as none. -/
def initBuffer (header : PlotHeader) : PlotHeaderHasher :=
  let bufLen0 : Int := hdrPreviousB.length + (hexEnc header.previous).length
  let hashListRootOffset : Int := bufLen0 + hdrHashListRootB.length
  let bufLen1 : Int := hashListRootOffset + (hexEnc header.hashListRoot).length
  let timeOffset : Int := bufLen1 + hdrTimeB.length
  let timeLen : Int := (decEnc header.time).length
  let bufLen2 : Int := timeOffset + timeLen + hdrTargetB.length +
    (hexEnc header.target).length + hdrThreadWorkB.length +
    (hexEnc header.threadWork).length
  let nonceOffset : Int := bufLen2 + hdrNonceB.length
  let nonceLen : Int := (decEnc header.nonce).length
  let bufLen3 : Int := nonceOffset + nonceLen + hdrHeightB.length +
    (decEnc header.height).length
  let interactionCountOffset : Int := bufLen3 + hdrInteractionCountB.length
  let txCountLen : Int := (decEnc header.interactionCount).length
  { previousHashListRoot := header.hashListRoot
    previousTime := header.time
    previousNonce := header.nonce
    previousInteractionCount := header.interactionCount
    hashListRootOffset := hashListRootOffset
    timeOffset := timeOffset
    nonceOffset := nonceOffset
    interactionCountOffset := interactionCountOffset
    timeLen := timeLen
    nonceLen := nonceLen
    txCountLen := txCountLen
    initialized := true
    bufLen := interactionCountOffset + txCountLen + hdrEndB.length
    buffer := serializeHeader header }

/-- The hash_list_root block of Update: on change, overwrite the 64 hex
bytes in place. -/
def hlrStep (h : PlotHeaderHasher) (header : PlotHeader) : PlotHeaderHasher :=
  if h.previousHashListRoot ≠ header.hashListRoot then
    { h with
      previousHashListRoot := header.hashListRoot
      buffer := writeAt h.buffer h.hashListRootOffset
        (hexEnc header.hashListRoot) }
  else h

/-- The time block of Update: on change, rewrite the decimal run; when its
length changed, re-emit everything from the target label through the nonce
label. Returns the running offset. -/
def timeStep (h : PlotHeaderHasher) (header : PlotHeader) :
    PlotHeaderHasher × Int :=
  if h.previousTime ≠ header.time then
    let timeB := decEnc header.time
    let timeLen : Int := timeB.length
    let offset := timeLen - h.timeLen
    let buf1 := writeAt h.buffer h.timeOffset timeB
    if offset ≠ 0 then
      ({ h with
          previousTime := header.time
          timeLen := timeLen
          buffer := writeAt buf1 (h.timeOffset + timeLen)
            (hdrTargetB ++ hexEnc header.target ++ hdrThreadWorkB ++
              hexEnc header.threadWork ++ hdrNonceB) }, offset)
    else
      ({ h with
          previousTime := header.time
          timeLen := timeLen
          buffer := buf1 }, offset)
  else (h, 0)

/-- The nonce block of Update: when shifted or changed, rewrite the decimal
run at the shifted offset; when the running offset is still nonzero,
re-emit the height and the interaction_count label. -/
def nonceStep (h : PlotHeaderHasher) (header : PlotHeader) (offsetIn : Int) :
    PlotHeaderHasher × Int :=
  if offsetIn ≠ 0 ∨ h.previousNonce ≠ header.nonce then
    let nonceOffset := h.nonceOffset + offsetIn
    let nonceB := decEnc header.nonce
    let nonceLen : Int := nonceB.length
    let offset := offsetIn + (nonceLen - h.nonceLen)
    let buf1 := writeAt h.buffer nonceOffset nonceB
    if offset ≠ 0 then
      ({ h with
          previousNonce := header.nonce
          nonceOffset := nonceOffset
          nonceLen := nonceLen
          buffer := writeAt buf1 (nonceOffset + nonceLen)
            (hdrHeightB ++ decEnc header.height ++ hdrInteractionCountB) },
        offset)
    else
      ({ h with
          previousNonce := header.nonce
          nonceOffset := nonceOffset
          nonceLen := nonceLen
          buffer := buf1 }, offset)
  else (h, offsetIn)

/-- The interaction_count block of Update: when shifted or changed, rewrite
the decimal run at the shifted offset; when the running offset is still
nonzero, re-emit the closing brace. -/
def countStep (h : PlotHeaderHasher) (header : PlotHeader) (offsetIn : Int) :
    PlotHeaderHasher × Int :=
  if offsetIn ≠ 0 ∨ h.previousInteractionCount ≠ header.interactionCount then
    let countOffset := h.interactionCountOffset + offsetIn
    let countB := decEnc header.interactionCount
    let countLen : Int := countB.length
    let offset := offsetIn + (countLen - h.txCountLen)
    let buf1 := writeAt h.buffer countOffset countB
    if offset ≠ 0 then
      ({ h with
          previousInteractionCount := header.interactionCount
          interactionCountOffset := countOffset
          txCountLen := countLen
          buffer := writeAt buf1 (countOffset + countLen) hdrEndB }, offset)
    else
      ({ h with
          previousInteractionCount := header.interactionCount
          interactionCountOffset := countOffset
          txCountLen := countLen
          buffer := buf1 }, offset)
  else (h, offsetIn)

/-- The state transition of PlotHeaderHasher.Update: initialize on first
use, otherwise run the four field blocks and add the net offset to the
buffer length. -/
def updateState (h : PlotHeaderHasher) (header : PlotHeader) :
    PlotHeaderHasher :=
  if h.initialized = false then initBuffer header
  else
    let s1 := hlrStep h header
    let s2 := timeStep s1 header
    let s3 := nonceStep s2.1 header s2.2
    let s4 := countStep s3.1 header s3.2
    { s4.1 with bufLen := s4.1.bufLen + s4.2 }

/-- PlotHeaderHasher.Update: advance the state, then hash the buffer
prefix of length bufLen and read the digest as a big-endian 256-bit
integer. The source's buffer is a fixed array of BUF_CAP bytes; when the
serialization is longer, h.hasher.Write(h.buffer[:h.bufLen]) slices past
the array and panics (and below that length every write along the way
stayed inside the array), so the call returns a value exactly when the
serialization fits: none models the panic. -/
def PlotHeaderHasher.Update (hash32 : List Nat → List Nat)
    (h : PlotHeaderHasher) (header : PlotHeader) :
    Option (PlotHeaderHasher × Nat) :=
  let s := updateState h header
  if s.bufLen ≤ (BUF_CAP : Int) then
    some (s, getBigInt (hash32 (s.buffer.take s.bufLen.toNat)))
  else none

/-- One scriber mutation of the header: new values for the four fields the
hasher tracks (hash_list_root, time, nonce, interaction_count). -/
structure HeaderMutation where
  hashListRoot : List Nat
  time : Int
  nonce : Int
  interactionCount : Int

/-- Apply a mutation to a header. -/
def applyMutation (h : PlotHeader) (m : HeaderMutation) : PlotHeader :=
  { h with
    hashListRoot := m.hashListRoot
    time := m.time
    nonce := m.nonce
    interactionCount := m.interactionCount }

/-- Run the hasher over a header and a mutation sequence: one Update on the
initial header, then one Update after each mutation. Returns the final
hasher state and header. -/
def runHasher (h0 : PlotHeader) (muts : List HeaderMutation) :
    PlotHeaderHasher × PlotHeader :=
  muts.foldl
    (fun sh m =>
      (updateState sh.1 (applyMutation sh.2 m), applyMutation sh.2 m))
    (updateState NewPlotHeaderHasher h0, h0)

/-- All headers a run passes to Update: the initial one and the result of
each successive mutation. -/
def runHeaders : PlotHeader → List HeaderMutation → List PlotHeader
  | h0, [] => [h0]
  | h0, m :: t => h0 :: runHeaders (applyMutation h0 m) t

/-- The serialized header up to and including the nonce label. -/
def prefixN (h : PlotHeader) : List Nat :=
  hdrPreviousB ++ hexEnc h.previous ++ hdrHashListRootB ++
    hexEnc h.hashListRoot ++ hdrTimeB ++ decEnc h.time ++ hdrTargetB ++
    hexEnc h.target ++ hdrThreadWorkB ++ hexEnc h.threadWork ++ hdrNonceB

/-- The height segment: height label, height digits, interaction_count
label. -/
def segQ (h : PlotHeader) : List Nat :=
  hdrHeightB ++ decEnc h.height ++ hdrInteractionCountB

/-- The serialized header up to the interaction_count digits. -/
def prefixC (h : PlotHeader) : List Nat :=
  prefixN h ++ decEnc h.nonce ++ segQ h

/-- Well-formed header: the four id fields are 32 bytes, as the Go arrays
are. -/
def wfHeader (h : PlotHeader) : Prop :=
  h.previous.length = 32 ∧ h.hashListRoot.length = 32 ∧
    h.target.length = 32 ∧ h.threadWork.length = 32

/-- The hasher is in sync with a header: initialized, tracked previous
values and decimal lengths current, offsets at their canonical positions,
and the buffer prefix of length bufLen is the canonical serialization. -/
def InvHasher (s : PlotHeaderHasher) (h : PlotHeader) : Prop :=
  s.initialized = true ∧
  s.previousHashListRoot = h.hashListRoot ∧
  s.previousTime = h.time ∧
  s.previousNonce = h.nonce ∧
  s.previousInteractionCount = h.interactionCount ∧
  s.hashListRootOffset = 97 ∧
  s.timeOffset = 170 ∧
  s.timeLen = ((decEnc h.time).length : Int) ∧
  s.nonceOffset = 336 + ((decEnc h.time).length : Int) ∧
  s.nonceLen = ((decEnc h.nonce).length : Int) ∧
  s.interactionCountOffset = 367 + ((decEnc h.time).length : Int) +
    ((decEnc h.nonce).length : Int) + ((decEnc h.height).length : Int) ∧
  s.txCountLen = ((decEnc h.interactionCount).length : Int) ∧
  s.bufLen = ((serializeHeader h).length : Int) ∧
  s.buffer.take s.bufLen.toNat = serializeHeader h ∧
  (serializeHeader h).length ≤ s.buffer.length

/-- Concrete stand-in hash for witnesses: the identity on byte strings. -/
def idFn : List Nat → List Nat := fun l => l

/-- Concrete stand-in interaction id for witnesses: the nonce as one byte. -/
def nonceId : Interaction → List Nat := fun tx => [tx.nonce.toNat]

/-- A concrete plotroot interaction for witnesses. -/
def txRoot : Interaction := ⟨0, 0, zeroPubKey, [], "", 0, 0, 0, []⟩

/-- A concrete ordinary interaction for witnesses. -/
def txOne : Interaction := ⟨0, 1, [], [], "", 0, 0, 0, []⟩

/-- Another concrete ordinary interaction for witnesses. -/
def txTwo : Interaction := ⟨0, 2, [], [], "", 0, 0, 0, []⟩


/-- Shifted hasher state between the time and nonce blocks of Update: the
tracked values and the buffer prefix through the nonce label are current
for h2, the nonce offset still reflects the old time length (off1 behind),
and the parts of the line the pending writes have not yet reached survive
from the previous serialization when the shift stays within them. -/
def PShiftN (s : PlotHeaderHasher) (h2 : PlotHeader) (off1 : Int) : Prop :=
  s.initialized = true ∧
  s.previousHashListRoot = h2.hashListRoot ∧
  s.previousTime = h2.time ∧
  s.previousNonce = h2.nonce ∧
  s.previousInteractionCount = h2.interactionCount ∧
  s.hashListRootOffset = 97 ∧
  s.timeOffset = 170 ∧
  s.timeLen = ((decEnc h2.time).length : Int) ∧
  s.nonceOffset = 336 + ((decEnc h2.time).length : Int) - off1 ∧
  s.nonceLen = ((decEnc h2.nonce).length : Int) ∧
  s.interactionCountOffset = s.nonceOffset + s.nonceLen + 31 +
    ((decEnc h2.height).length : Int) ∧
  s.txCountLen = ((decEnc h2.interactionCount).length : Int) ∧
  s.bufLen = s.interactionCountOffset + s.txCountLen + 1 ∧
  s.buffer.take (336 + (decEnc h2.time).length) = prefixN h2 ∧
  336 + (decEnc h2.time).length ≤ s.buffer.length ∧
  (off1 ≤ s.nonceLen →
    (s.buffer.drop (s.nonceOffset + s.nonceLen).toNat).take
        ((s.bufLen - (s.nonceOffset + s.nonceLen)).toNat) =
      segQ h2 ++ decEnc h2.interactionCount ++ hdrEndB) ∧
  (off1 ≤ s.nonceLen + 31 + ((decEnc h2.height).length : Int) + s.txCountLen →
    (s.buffer.drop (s.bufLen - 1).toNat).take 1 = hdrEndB)

/-- Shifted hasher state between the nonce and interaction_count blocks of
Update: everything through the interaction_count label is current for h2,
the interaction_count offset is off1 behind its canonical position, and
the closing brace survives when the shift stays within the digits. -/
def PShiftC (s : PlotHeaderHasher) (h2 : PlotHeader) (off1 : Int) : Prop :=
  s.initialized = true ∧
  s.previousHashListRoot = h2.hashListRoot ∧
  s.previousTime = h2.time ∧
  s.previousNonce = h2.nonce ∧
  s.previousInteractionCount = h2.interactionCount ∧
  s.hashListRootOffset = 97 ∧
  s.timeOffset = 170 ∧
  s.timeLen = ((decEnc h2.time).length : Int) ∧
  s.nonceOffset = 336 + ((decEnc h2.time).length : Int) ∧
  s.nonceLen = ((decEnc h2.nonce).length : Int) ∧
  s.interactionCountOffset = 367 + ((decEnc h2.time).length : Int) +
    ((decEnc h2.nonce).length : Int) + ((decEnc h2.height).length : Int) -
    off1 ∧
  s.txCountLen = ((decEnc h2.interactionCount).length : Int) ∧
  s.bufLen = s.interactionCountOffset + s.txCountLen + 1 ∧
  s.buffer.take (367 + (decEnc h2.time).length + (decEnc h2.nonce).length +
    (decEnc h2.height).length) = prefixC h2 ∧
  367 + (decEnc h2.time).length + (decEnc h2.nonce).length +
    (decEnc h2.height).length ≤ s.buffer.length ∧
  (off1 ≤ s.txCountLen →
    (s.buffer.drop (s.bufLen - 1).toNat).take 1 = hdrEndB)

/-- A concrete well-formed header for witnesses. -/
def hdrW : PlotHeader :=
  ⟨List.replicate 32 0, List.replicate 32 0, 5, List.replicate 32 0,
    List.replicate 32 0, 7, 3, 2⟩

/-- A concrete first mutation for witnesses (longer time and nonce runs). -/
def mutW : HeaderMutation := ⟨List.replicate 32 1, 60, 800, 3⟩

/-- A concrete second mutation for witnesses. -/
def mutW2 : HeaderMutation := ⟨List.replicate 32 2, 7, 11, 40⟩

/-- A representable header (the three int64 fields and the int32 field at
their minima) whose serialization is 439 bytes, past the preallocated
buffer. -/
def hdrOver : PlotHeader :=
  ⟨List.replicate 32 0, List.replicate 32 0, -(2 ^ 63), List.replicate 32 0,
    List.replicate 32 0, -(2 ^ 63), -(2 ^ 63), -(2 ^ 31)⟩

/-! ## Theorems -/

/-- Go division (truncation toward zero) agrees with floor division when the
dividend and the divisor are both nonnegative. -/
theorem tdiv_eq_fdiv_of_nonneg (a b : Int) (ha : 0 ≤ a) (hb : 0 ≤ b) :
    a.tdiv b = a.fdiv b := by
  obtain ⟨m, rfl⟩ := Int.eq_ofNat_of_zero_le ha
  obtain ⟨n, rfl⟩ := Int.eq_ofNat_of_zero_le hb
  cases m with
  | zero => simp [Int.tdiv, Int.fdiv]
  | succ k => rfl

/-- C3, counterexample. The claim asserts that for a non-plotroot sender the
series is the mathematical floor of (h-100)/PLOTS_UNTIL_NEW_SERIES plus one
even for h < 100; at h = 0 the code computes 1 (Go division truncates toward
zero) while the floor formula gives 0. -/
theorem computeInteractionSeries_floor_counterexample :
    computeInteractionSeries false 0 ≠
      Int.fdiv (0 - 100) PLOTS_UNTIL_NEW_SERIES + 1 := by
  decide

/-- C3, amended: for h ≥ 0 the plotroot series is floor(h/P)+1; the
non-plotroot series is trunc((h-100)/P)+1 with Go division truncating
toward zero, which agrees with the floor formula only for h ≥ 100. -/
theorem computeInteractionSeries_spec (h : Int) (hh : 0 ≤ h) :
    computeInteractionSeries true h = Int.fdiv h PLOTS_UNTIL_NEW_SERIES + 1 ∧
    computeInteractionSeries false h =
      Int.tdiv (h - 100) PLOTS_UNTIL_NEW_SERIES + 1 ∧
    (100 ≤ h → computeInteractionSeries false h =
      Int.fdiv (h - 100) PLOTS_UNTIL_NEW_SERIES + 1) := by
  refine ⟨?_, ?_, ?_⟩
  · show Int.tdiv h PLOTS_UNTIL_NEW_SERIES + 1 = _
    rw [tdiv_eq_fdiv_of_nonneg h PLOTS_UNTIL_NEW_SERIES hh (by decide)]
  · rfl
  · intro h100
    show Int.tdiv (h - 100) PLOTS_UNTIL_NEW_SERIES + 1 = _
    rw [tdiv_eq_fdiv_of_nonneg (h - 100) PLOTS_UNTIL_NEW_SERIES (by omega) (by decide)]

/-- C3, witness for the amended theorem at h = 2024. -/
theorem computeInteractionSeries_spec_witness :
    computeInteractionSeries true 2024 = Int.fdiv 2024 PLOTS_UNTIL_NEW_SERIES + 1 ∧
    computeInteractionSeries false 2024 =
      Int.tdiv (2024 - 100) PLOTS_UNTIL_NEW_SERIES + 1 ∧
    (100 ≤ (2024 : Int) → computeInteractionSeries false 2024 =
      Int.fdiv (2024 - 100) PLOTS_UNTIL_NEW_SERIES + 1) :=
  computeInteractionSeries_spec 2024 (by decide)

/-- C4, counterexample. With previous thread work 2^256 - 1 and target
2^256 - 1 the exact sum is 2^256: the claim says the function still returns
normally with a saturated value, but the source panics in SetBigInt
("Too much work"), modelled as none. -/
theorem computeThreadWork_overflow_counterexample :
    computeThreadWork (2 ^ 256 - 1) (2 ^ 256 - 1) = none := by
  have h1 : computePlotWork (2 ^ 256 - 1) = 1 := by
    rw [computePlotWork]
    norm_num
  rw [computeThreadWork, h1, setBigInt]
  norm_num

/-- C4, amended: computeThreadWork returns the exact 256-bit sum
thread_work(prev) + plot_work(target) when that sum fits in 256 bits, and
panics (none) otherwise — it does not saturate. -/
theorem computeThreadWork_spec (target threadWork : Nat) :
    (threadWork + computePlotWork target < 2 ^ 256 →
      computeThreadWork target threadWork =
        some (threadWork + computePlotWork target)) ∧
    (2 ^ 256 ≤ threadWork + computePlotWork target →
      computeThreadWork target threadWork = none) := by
  constructor
  · intro h
    rw [computeThreadWork, setBigInt, if_pos h]
  · intro h
    rw [computeThreadWork, setBigInt, if_neg (by omega)]

/-- C4, witness for the amended theorem: target 1, previous work 7. -/
theorem computeThreadWork_spec_witness :
    computeThreadWork 1 7 = some (7 + computePlotWork 1) :=
  (computeThreadWork_spec 1 7).1 (by norm_num [computePlotWork])

/-- C5, counterexample. plot_work(0) = 0 while plot_work(1) = 2^255, so at
t1 = 0, t2 = 1 the claimed equivalence plot_work(t1) ≥ plot_work(t2) ↔
t1 ≤ t2 has a true right side and a false left side. -/
theorem computePlotWork_monotone_counterexample :
    ¬(computePlotWork 1 ≤ computePlotWork 0 ↔ (0 : Nat) ≤ 1) := by
  have h0 : computePlotWork 0 = 0 := rfl
  have h1 : computePlotWork 1 = 2 ^ 255 := by
    rw [computePlotWork]
    norm_num
  rw [h0, h1]
  intro h
  have h2 := h.mpr (by norm_num)
  norm_num at h2

/-- C5, amended: on positive targets plot_work is antitone
(t1 ≤ t2 → plot_work(t1) ≥ plot_work(t2)), and plot_work(0) = 0.
The biconditional of the claim fails in both directions: at target 0
(work jumps to 0 instead of the maximum) and at large targets where
truncated division maps distinct targets to equal work. -/
theorem computePlotWork_antitone (t1 t2 : Nat) (h1 : 1 ≤ t1) (h12 : t1 ≤ t2) :
    computePlotWork t2 ≤ computePlotWork t1 := by
  rw [computePlotWork, computePlotWork, if_neg (by omega), if_neg (by omega)]
  exact Nat.div_le_div_left (by omega) (by omega)

/-- C5, witness for the amended theorem at t1 = 2, t2 = 5. -/
theorem computePlotWork_antitone_witness :
    computePlotWork 5 ≤ computePlotWork 2 :=
  computePlotWork_antitone 2 5 (by decide) (by decide)

/-- hexDecode succeeds exactly on even-length all-hex byte strings. -/
theorem hexDecode_isSome : ∀ l : List Nat,
    (hexDecode l).isSome =
      (decide (l.length % 2 = 0) && l.all (fun c => (fromHexChar c).isSome))
  | [] => by simp [hexDecode]
  | [c] => by simp [hexDecode]
  | c1 :: c2 :: rest => by
    have ih := hexDecode_isSome rest
    have hmod : (rest.length + 1 + 1) % 2 = rest.length % 2 := by omega
    rw [hexDecode]
    rcases h1 : fromHexChar c1 with _ | v1 <;>
      rcases h2 : fromHexChar c2 with _ | v2 <;>
        rcases hr : hexDecode rest with _ | bs <;>
          simp_all [List.all_cons, List.length_cons]

/-- Prop form of hexDecode_isSome. -/
theorem hexDecode_eq_none_iff (l : List Nat) :
    hexDecode l = none ↔ ¬(l.length % 2 = 0 ∧ ∀ c ∈ l, fromHexChar c ≠ none) := by
  have h := hexDecode_isSome l
  rw [← Option.not_isSome_iff_eq_none, h]
  simp [List.all_eq_true, Option.isSome_iff_ne_none]

/-- C10: both unmarshallers fail exactly when the input is not 66 bytes or
its middle 64 bytes are not hex, and for the 66-byte input
x<64 zeros>x (0x78 = the letter x, not a quote, 0x22) both succeed:
the surrounding quote characters are never validated. -/
theorem unmarshalID_error_iff :
    (∀ b : List Nat,
      (unmarshalInteractionID b = none ↔
        ¬(b.length = 66 ∧ ∀ c ∈ (b.drop 1).take 64, fromHexChar c ≠ none)) ∧
      unmarshalPlotID b = unmarshalInteractionID b) ∧
    (unmarshalInteractionID (120 :: (List.replicate 64 48 ++ [120])) ≠ none ∧
      unmarshalPlotID (120 :: (List.replicate 64 48 ++ [120])) ≠ none ∧
      (120 :: (List.replicate 64 48 ++ [120])).length = 66 ∧ (120 : Nat) ≠ 34) := by
  constructor
  · intro b
    constructor
    · rw [unmarshalInteractionID]
      by_cases hlen : b.length = 66
      · rw [if_neg (by omega)]
        have hmid : (b.drop 1).take (b.length - 2) = (b.drop 1).take 64 := by
          rw [hlen]
        have hmlen : ((b.drop 1).take 64).length = 64 := by
          simp [List.length_take, List.length_drop, hlen]
        rw [hmid]
        rcases hd : hexDecode ((b.drop 1).take 64) with _ | v
        · have hfail := (hexDecode_eq_none_iff _).mp hd
          rw [hmlen] at hfail
          refine iff_of_true rfl ?_
          rintro ⟨-, hall⟩
          exact hfail ⟨by norm_num, hall⟩
        · refine iff_of_false (by simp) ?_
          have hall : ∀ c ∈ (b.drop 1).take 64, fromHexChar c ≠ none := by
            by_contra hc
            have hn : hexDecode ((b.drop 1).take 64) = none := by
              rw [hexDecode_eq_none_iff]
              rintro ⟨-, hall2⟩
              exact hc hall2
            rw [hn] at hd
            exact Option.noConfusion hd
          exact not_not.mpr ⟨hlen, hall⟩
      · rw [if_pos (by omega)]
        exact iff_of_true rfl (fun h => hlen h.1)
    · rw [unmarshalPlotID, unmarshalInteractionID]
  · refine ⟨by decide, by decide, by decide, by decide⟩

/-- C6: Add returns (false, nil) on a known id; on insufficient imbalance it
returns false, an error message containing "insufficient imbalance", and
leaves the queue unchanged; otherwise it appends to the back, indexes the
id, and returns (true, nil). -/
theorem interactionQueueMemory_Add_spec {C : Type}
    (applyFn : C → Interaction → Option (C × Bool))
    (q : InteractionQueueMemory C) (id : List Nat) (tx : Interaction) :
    (id ∈ queueIds q →
      InteractionQueueMemory.Add applyFn q id tx = ⟨q, false, none⟩) ∧
    (id ∉ queueIds q → ∀ c : C,
      applyFn q.imbalanceCache tx = some (c, false) →
      (InteractionQueueMemory.Add applyFn q id tx).added = false ∧
      (InteractionQueueMemory.Add applyFn q id tx).queue.txQueue = q.txQueue ∧
      ∃ msg, (InteractionQueueMemory.Add applyFn q id tx).err = some msg ∧
        ∃ l r, msg = l ++ strBytes "insufficient imbalance" ++ r) ∧
    (id ∉ queueIds q → ∀ c : C,
      applyFn q.imbalanceCache tx = some (c, true) →
      InteractionQueueMemory.Add applyFn q id tx =
        ⟨⟨q.txQueue ++ [(id, tx)], c⟩, true, none⟩) := by
  refine ⟨?_, ?_, ?_⟩
  · intro hmem
    rw [InteractionQueueMemory.Add, if_pos hmem]
  · intro hmem c happ
    rw [InteractionQueueMemory.Add, if_neg hmem, happ]
    refine ⟨rfl, rfl, insufficientImbalanceMsg id tx, rfl,
      strBytes "Interaction " ++ hexEnc id ++ strBytes " sender " ++
        base64Encode tx.from_ ++ strBytes " has ", [], ?_⟩
    show insufficientImbalanceMsg id tx = _
    rw [insufficientImbalanceMsg]
    have h : strBytes " has insufficient imbalance" =
        strBytes " has " ++ strBytes "insufficient imbalance" := by decide
    rw [h]
    simp [List.append_assoc]
  · intro hmem c happ
    rw [InteractionQueueMemory.Add, if_neg hmem, happ]

/-- C6, witness: the insufficient-imbalance case of Add at a concrete
queue. -/
theorem interactionQueueMemory_Add_spec_witness :
    ((InteractionQueueMemory.Add (C := Unit) (fun c _ => some (c, false))
        ⟨[], ()⟩ [1] ⟨0, 0, [], [], "", 0, 0, 0, []⟩).added = false ∧
      (InteractionQueueMemory.Add (C := Unit) (fun c _ => some (c, false))
        ⟨[], ()⟩ [1] ⟨0, 0, [], [], "", 0, 0, 0, []⟩).queue.txQueue = [] ∧
      ∃ msg, (InteractionQueueMemory.Add (C := Unit) (fun c _ => some (c, false))
        ⟨[], ()⟩ [1] ⟨0, 0, [], [], "", 0, 0, 0, []⟩).err = some msg ∧
        ∃ l r, msg = l ++ strBytes "insufficient imbalance" ++ r) :=
  (interactionQueueMemory_Add_spec (fun c _ => some (c, false))
    ⟨[], ()⟩ [1] ⟨0, 0, [], [], "", 0, 0, 0, []⟩).2.1 (by decide) () rfl

/-- The AddBatch fold, restated head-first: with pairwise distinct ids the
result is the batch in input order followed by the old queue purged of the
batch ids. -/
theorem addBatch_foldr {C : Type} (q : InteractionQueueMemory C)
    (pairs : List (List Nat × Interaction))
    (hnd : (pairs.map Prod.fst).Nodup) :
    (pairs.foldr addBatchStep q).txQueue =
      pairs ++ q.txQueue.filter (fun e => e.1 ∉ pairs.map Prod.fst) := by
  induction pairs with
  | nil => simp
  | cons p rest ih =>
    simp only [List.map_cons, List.nodup_cons] at hnd
    rw [List.foldr_cons, addBatchStep, ih hnd.2]
    simp only
    have h1 : rest.filter (fun e => decide (e.1 ≠ p.1)) = rest := by
      rw [List.filter_eq_self]
      intro e he
      rw [decide_eq_true_eq]
      intro hc
      exact hnd.1 (hc ▸ List.mem_map_of_mem Prod.fst he)
    have h2 : ∀ e ∈ q.txQueue,
        (decide (e.1 ≠ p.1) && decide (e.1 ∉ rest.map Prod.fst)) =
          decide (e.1 ∉ (p :: rest).map Prod.fst) := by
      intro e _
      simp only [List.map_cons, List.mem_cons]
      by_cases hp : e.1 = p.1 <;> by_cases hr : e.1 ∈ rest.map Prod.fst <;>
        simp [hp, hr]
    rw [List.filter_append, List.filter_filter, h1, List.filter_congr h2]
    simp

/-- C7, amended: for batches whose ids are pairwise distinct, AddBatch
leaves the queue as the batch in input order followed by the prior contents
purged of the batch ids, dropping nothing for series, maturity, expiry or
imbalance reasons. -/
theorem interactionQueueMemory_AddBatch_spec {C : Type}
    (q : InteractionQueueMemory C) (ids : List (List Nat))
    (txs : List Interaction) (height : Int)
    (hnd : ids.Nodup) (hlen : ids.length = txs.length) :
    (InteractionQueueMemory.AddBatch q ids txs height).txQueue =
      ids.zip txs ++ q.txQueue.filter (fun e => e.1 ∉ ids) := by
  rw [InteractionQueueMemory.AddBatch, List.foldl_reverse]
  have hmap : (ids.zip txs).map Prod.fst = ids :=
    List.map_fst_zip ids txs (le_of_eq hlen)
  have := addBatch_foldr q (ids.zip txs) (by rw [hmap]; exact hnd)
  rw [hmap] at this
  exact this

/-- C7, witness for the amended theorem: one-element batch on a one-element
queue. -/
theorem interactionQueueMemory_AddBatch_spec_witness :
    (InteractionQueueMemory.AddBatch (C := Unit)
        ⟨[([2], ⟨3, 3, [], [], "", 0, 0, 0, []⟩)], ()⟩
        [[1]] [⟨1, 1, [], [], "", 0, 0, 0, []⟩] 7).txQueue =
      [[1]].zip [⟨1, 1, [], [], "", 0, 0, 0, []⟩] ++
        (⟨[([2], ⟨3, 3, [], [], "", 0, 0, 0, []⟩)], ()⟩ :
          InteractionQueueMemory Unit).txQueue.filter
            (fun e => e.1 ∉ [[1]]) :=
  interactionQueueMemory_AddBatch_spec
    ⟨[([2], ⟨3, 3, [], [], "", 0, 0, 0, []⟩)], ()⟩
    [[1]] [⟨1, 1, [], [], "", 0, 0, 0, []⟩] 7 (by decide) (by decide)

/-- C7, counterexample. With a duplicated id in the batch the claimed shape
fails: from queue [B], AddBatch with ids [a, a] and txs [t1, t2] yields
[t1, B] (the second push is removed again by the first id's removal step),
not t1, t2 followed by the prior queue. -/
theorem interactionQueueMemory_AddBatch_counterexample :
    (InteractionQueueMemory.AddBatch (C := Unit)
        ⟨[([2], ⟨3, 3, [], [], "", 0, 0, 0, []⟩)], ()⟩
        [[1], [1]]
        [⟨1, 1, [], [], "", 0, 0, 0, []⟩, ⟨2, 2, [], [], "", 0, 0, 0, []⟩]
        5).txQueue ≠
      [[1], [1]].zip
          [⟨1, 1, [], [], "", 0, 0, 0, []⟩, ⟨2, 2, [], [], "", 0, 0, 0, []⟩] ++
        (⟨[([2], ⟨3, 3, [], [], "", 0, 0, 0, []⟩)], ()⟩ :
          InteractionQueueMemory Unit).txQueue.filter
            (fun e => e.1 ∉ [[1], [1]]) := by
  decide

/-- C9: Compare is true exactly when this header has more work, or equal
work and an earlier stored timestamp, or equal work, equal timestamps and a
smaller id as a big-endian integer; and it is asymmetric-total off the
diagonal of (work, stored time, id). -/
theorem plotHeader_Compare_spec (hash32 : List Nat → List Nat)
    (a b : PlotHeader) (ta tb : Int) :
    (PlotHeader.Compare hash32 a b ta tb = true ↔
      (getBigInt b.threadWork < getBigInt a.threadWork ∨
        (getBigInt a.threadWork = getBigInt b.threadWork ∧ ta < tb) ∨
        (getBigInt a.threadWork = getBigInt b.threadWork ∧ ta = tb ∧
          getBigInt (headerID hash32 a) < getBigInt (headerID hash32 b)))) ∧
    (¬(getBigInt a.threadWork = getBigInt b.threadWork ∧ ta = tb ∧
          getBigInt (headerID hash32 a) = getBigInt (headerID hash32 b)) →
      PlotHeader.Compare hash32 a b ta tb =
        !(PlotHeader.Compare hash32 b a tb ta)) := by
  have hiff : ∀ (x y : PlotHeader) (tx ty : Int),
      PlotHeader.Compare hash32 x y tx ty = true ↔
        (getBigInt y.threadWork < getBigInt x.threadWork ∨
          (getBigInt x.threadWork = getBigInt y.threadWork ∧ tx < ty) ∨
          (getBigInt x.threadWork = getBigInt y.threadWork ∧ tx = ty ∧
            getBigInt (headerID hash32 x) < getBigInt (headerID hash32 y))) := by
    intro x y tx ty
    simp only [PlotHeader.Compare]
    split_ifs with h1 h2 h3 h4
    · exact iff_of_true rfl (Or.inl h1)
    · exact iff_of_false (by simp) (by omega)
    · exact iff_of_true rfl (by omega)
    · exact iff_of_false (by simp) (by omega)
    · rw [decide_eq_true_eq]
      omega
  refine ⟨hiff a b ta tb, ?_⟩
  intro hne
  have h1 := hiff a b ta tb
  have h2 := hiff b a tb ta
  cases hcab : PlotHeader.Compare hash32 a b ta tb <;>
    cases hcba : PlotHeader.Compare hash32 b a tb ta <;>
      rw [hcab] at h1 <;> rw [hcba] at h2 <;> simp_all <;> omega

/-- C9, witness: two headers with different thread work. -/
theorem plotHeader_Compare_spec_witness :
    PlotHeader.Compare (fun _ => []) ⟨[], [], 0, [], [1], 0, 0, 0⟩
        ⟨[], [], 0, [], [], 0, 0, 0⟩ 0 0 =
      !(PlotHeader.Compare (fun _ => []) ⟨[], [], 0, [], [], 0, 0, 0⟩
        ⟨[], [], 0, [], [1], 0, 0, 0⟩ 0 0) :=
  (plotHeader_Compare_spec (fun _ => []) ⟨[], [], 0, [], [1], 0, 0, 0⟩
    ⟨[], [], 0, [], [], 0, 0, 0⟩ 0 0).2 (by decide)

/-- Adding interactions one at a time keeps the plot in sync with the
running hasher: the hasher state is the concatenation of the non-plotroot
ids and the root is the plotroot remix of that state. -/
theorem addAll_inSync (hash32 : List Nat → List Nat)
    (txId : Interaction → List Nat) (c : Interaction) (L2 : List Interaction) :
    ∀ (p : Plot) (rest : List Interaction),
      p.interactions = c :: rest →
      p.hasher = (rest.map txId).flatten →
      p.header.hashListRoot = addPlotrootToHashListRoot hash32 txId p.hasher c →
      ∃ p', addAll hash32 txId p L2 = some p' ∧
        p'.interactions = c :: (rest ++ L2) ∧
        p'.hasher = ((rest ++ L2).map txId).flatten ∧
        p'.header.hashListRoot =
          addPlotrootToHashListRoot hash32 txId p'.hasher c := by
  induction L2 with
  | nil =>
    intro p rest h1 h2 h3
    exact ⟨p, rfl, by simp [h1], by simp [h2], h3⟩
  | cons tx L2' ih =>
    intro p rest h1 h2 h3
    have hstep : Plot.AddInteraction hash32 txId p (txId tx) tx =
        some ⟨⟨p.header.previous,
            addPlotrootToHashListRoot hash32 txId (p.hasher ++ txId tx) c,
            p.header.time, p.header.target, p.header.threadWork,
            p.header.nonce, p.header.height, p.header.interactionCount + 1⟩,
          (c :: rest) ++ [tx], p.hasher ++ txId tx⟩ := by
      rw [Plot.AddInteraction, h1]
    have hunfold : addAll hash32 txId p (tx :: L2') =
        addAll hash32 txId
          ⟨⟨p.header.previous,
              addPlotrootToHashListRoot hash32 txId (p.hasher ++ txId tx) c,
              p.header.time, p.header.target, p.header.threadWork,
              p.header.nonce, p.header.height, p.header.interactionCount + 1⟩,
            (c :: rest) ++ [tx], p.hasher ++ txId tx⟩ L2' := by
      simp only [addAll, List.foldl_cons, Option.some_bind]
      rw [hstep]
    obtain ⟨p', hAdd, hints, hhash, hroot⟩ :=
      ih ⟨⟨p.header.previous,
            addPlotrootToHashListRoot hash32 txId (p.hasher ++ txId tx) c,
            p.header.time, p.header.target, p.header.threadWork,
            p.header.nonce, p.header.height, p.header.interactionCount + 1⟩,
          (c :: rest) ++ [tx], p.hasher ++ txId tx⟩
        (rest ++ [tx]) (by simp) (by simp [h2]) (by simp [h2])
    refine ⟨p', by rw [hunfold]; exact hAdd, ?_, ?_, hroot⟩
    · rw [hints]
      simp
    · rw [hhash]
      simp

/-- C2: building a plot from the prefix c :: L1 and appending L2 one at a
time through AddInteraction yields the same hash list root as the batch
computeHashListRoot over c :: (L1 ++ L2), namely
H(id(c) | H(id concatenation of L1 ++ L2)); the final interaction list is
the whole of L. -/
theorem plot_incremental_hashListRoot (hash32 : List Nat → List Nat)
    (txId : Interaction → List Nat) (c : Interaction) (L1 L2 : List Interaction)
    (previous target threadWork : List Nat) (height time nonce : Int)
    (hroot : c.IsPlotroot = true)
    (hcap : (c :: L1).length ≤ MAX_INTERACTIONS_PER_PLOT)
    (hw : getBigInt threadWork + computePlotWork (getBigInt target) < 2 ^ 256) :
    ((NewPlot hash32 txId previous height target threadWork (c :: L1)
          time nonce).bind
        (fun p0 => addAll hash32 txId p0 L2)).map
          (fun p => (p.header.hashListRoot, p.interactions)) =
      some (hash32 (txId c ++ hash32 (((L1 ++ L2).map txId).flatten)),
        c :: (L1 ++ L2)) ∧
    (computeHashListRoot hash32 txId [] (c :: (L1 ++ L2))).map Prod.fst =
      some (hash32 (txId c ++ hash32 (((L1 ++ L2).map txId).flatten))) := by
  constructor
  · rw [NewPlot, if_neg (by omega), computeHashListRoot]
    rw [setBigIntBytes, if_pos hw]
    rw [Option.some_bind]
    obtain ⟨p', hAdd, hints, hhash, hrt⟩ :=
      addAll_inSync hash32 txId c L2
        ⟨⟨previous,
            addPlotrootToHashListRoot hash32 txId ([] ++ (L1.map txId).flatten) c,
            time, target,
            natToBytesBE 32
              (getBigInt threadWork + computePlotWork (getBigInt target)),
            nonce, height, ((c :: L1).length : Int)⟩,
          c :: L1, [] ++ (L1.map txId).flatten⟩
        L1 rfl (by simp) rfl
    rw [hAdd]
    have hr2 : p'.header.hashListRoot =
        hash32 (txId c ++ hash32 (((L1 ++ L2).map txId).flatten)) := by
      rw [hrt, hhash, addPlotrootToHashListRoot]
    simp [hr2, hints]
  · rw [computeHashListRoot]
    simp [addPlotrootToHashListRoot]

/-- C2, witness: plotroot plus one initial interaction, one appended
interaction, identity stand-ins for the hash functions. -/
theorem plot_incremental_hashListRoot_witness :
    ((NewPlot idFn nonceId [] 0 [] [] (txRoot :: [txOne]) 0 0).bind
        (fun p0 => addAll idFn nonceId p0 [txTwo])).map
          (fun p => (p.header.hashListRoot, p.interactions)) =
      some (idFn (nonceId txRoot ++
          idFn ((([txOne] ++ [txTwo]).map nonceId).flatten)),
        txRoot :: ([txOne] ++ [txTwo])) ∧
    (computeHashListRoot idFn nonceId []
        (txRoot :: ([txOne] ++ [txTwo]))).map Prod.fst =
      some (idFn (nonceId txRoot ++
          idFn ((([txOne] ++ [txTwo]).map nonceId).flatten))) :=
  plot_incremental_hashListRoot idFn nonceId txRoot [txOne] [txTwo]
    [] [] [] 0 0 0 (by decide) (by decide) (by decide)

/-! ### C8: PageRank termination and conservation -/

theorem g3_outbound : g3.outbound = [1, 1, 1] := by
  simp [g3, Graph.Link, NewGraph]

theorem g3_len : g3.index.length = 3 := by
  simp [g3, Graph.Link, NewGraph]

theorem range3 : List.range 3 = [0, 1, 2] := by decide

theorem ge00 : g3.edges 0 0 = 0 := by simp [g3, Graph.Link, NewGraph]
theorem ge01 : g3.edges 0 1 = 1 := by simp [g3, Graph.Link, NewGraph]
theorem ge02 : g3.edges 0 2 = 0 := by simp [g3, Graph.Link, NewGraph]
theorem ge10 : g3.edges 1 0 = 0 := by simp [g3, Graph.Link, NewGraph]
theorem ge11 : g3.edges 1 1 = 0 := by simp [g3, Graph.Link, NewGraph]
theorem ge12 : g3.edges 1 2 = 1 := by simp [g3, Graph.Link, NewGraph]
theorem ge20 : g3.edges 2 0 = 0 := by simp [g3, Graph.Link, NewGraph]
theorem ge21 : g3.edges 2 1 = 1 := by simp [g3, Graph.Link, NewGraph]
theorem ge22 : g3.edges 2 2 = 0 := by simp [g3, Graph.Link, NewGraph]

theorem g3_init : rankIter 1 g3 0 = [1/3, 1/3, 1/3] := by
  show rankInit g3 = _
  rw [rankInit, g3_len]
  norm_num [List.replicate_succ]

theorem g3_step0 : rankStep 1 g3 [1/3, 1/3, 1/3] = [0, 2/3, 1/3] := by
  simp only [rankStep, rankLeak, g3_len, g3_outbound, range3,
    List.map_cons, List.map_nil, List.sum_cons, List.sum_nil,
    List.getD_cons_zero, List.getD_cons_succ,
    ge00, ge01, ge02, ge10, ge11, ge12, ge20, ge21, ge22]
  norm_num

theorem g3_step1 : rankStep 1 g3 [0, 2/3, 1/3] = [0, 1/3, 2/3] := by
  simp only [rankStep, rankLeak, g3_len, g3_outbound, range3,
    List.map_cons, List.map_nil, List.sum_cons, List.sum_nil,
    List.getD_cons_zero, List.getD_cons_succ,
    ge00, ge01, ge02, ge10, ge11, ge12, ge20, ge21, ge22]
  norm_num

theorem g3_step2 : rankStep 1 g3 [0, 1/3, 2/3] = [0, 2/3, 1/3] := by
  simp only [rankStep, rankLeak, g3_len, g3_outbound, range3,
    List.map_cons, List.map_nil, List.sum_cons, List.sum_nil,
    List.getD_cons_zero, List.getD_cons_succ,
    ge00, ge01, ge02, ge10, ge11, ge12, ge20, ge21, ge22]
  norm_num

theorem g3_delta0 : ¬ rankDelta [1/3, 1/3, 1/3] ([0, 2/3, 1/3] : List ℚ) ≤ 1/1000000 := by
  rw [rankDelta]
  norm_num [range3, List.map_cons, List.sum_cons, List.getD_cons_zero,
    List.getD_cons_succ, abs_of_nonneg, abs_of_nonpos]

theorem g3_delta1 : ¬ rankDelta [0, 2/3, 1/3] ([0, 1/3, 2/3] : List ℚ) ≤ 1/1000000 := by
  rw [rankDelta]
  norm_num [range3, List.map_cons, List.sum_cons, List.getD_cons_zero,
    List.getD_cons_succ, abs_of_nonneg, abs_of_nonpos]

theorem g3_delta2 : ¬ rankDelta [0, 1/3, 2/3] ([0, 2/3, 1/3] : List ℚ) ≤ 1/1000000 := by
  rw [rankDelta]
  norm_num [range3, List.map_cons, List.sum_cons, List.getD_cons_zero,
    List.getD_cons_succ, abs_of_nonneg, abs_of_nonpos]

theorem g3_iter_periodic : ∀ k, rankIter 1 g3 (k + 1) = [0, 2/3, 1/3] ∨
    rankIter 1 g3 (k + 1) = [0, 1/3, 2/3] := by
  intro k
  induction k with
  | zero =>
    left
    show rankStep 1 g3 (rankIter 1 g3 0) = _
    rw [g3_init, g3_step0]
  | succ m ih =>
    rcases ih with h | h
    · right
      show rankStep 1 g3 (rankIter 1 g3 (m + 1)) = _
      rw [h, g3_step1]
    · left
      show rankStep 1 g3 (rankIter 1 g3 (m + 1)) = _
      rw [h, g3_step2]

theorem graph_Rank_nontermination_counterexample :
    ¬ RankTerminates 1 (1 / 1000000) g3 := by
  rintro ⟨k, hk⟩
  cases k with
  | zero =>
    rw [show rankIter 1 g3 1 = rankStep 1 g3 (rankIter 1 g3 0) from rfl,
      g3_init, g3_step0] at hk
    exact g3_delta0 hk
  | succ m =>
    rcases g3_iter_periodic m with h | h
    · rw [show rankIter 1 g3 (m + 1 + 1) = rankStep 1 g3 (rankIter 1 g3 (m + 1)) from rfl,
        h, g3_step1] at hk
      exact g3_delta1 hk
    · rw [show rankIter 1 g3 (m + 1 + 1) = rankStep 1 g3 (rankIter 1 g3 (m + 1)) from rfl,
        h, g3_step2] at hk
      exact g3_delta2 hk

theorem sum_map_range_eq (n : Nat) (f : Nat → ℚ) :
    ((List.range n).map f).sum = ∑ i ∈ Finset.range n, f i := by
  induction n with
  | zero => simp
  | succ m ih =>
    rw [List.range_succ, List.map_append, List.sum_append,
      Finset.sum_range_succ, ih]
    simp

theorem sum_getD_eq (r : List ℚ) :
    ∑ i ∈ Finset.range r.length, r.getD i 0 = r.sum := by
  induction r with
  | nil => simp
  | cons a t ih =>
    rw [List.length_cons, Finset.sum_range_succ']
    simp only [List.getD_cons_succ, List.getD_cons_zero]
    rw [ih, List.sum_cons, add_comm]

theorem rankStep_sum_eq_one (alpha : ℚ) (g : Graph) (r : List ℚ)
    (hn : 0 < g.index.length) (hr : r.length = g.index.length)
    (hsum : r.sum = 1)
    (hout : ∀ s, s < g.index.length →
      g.outbound.getD s 0 = ∑ t ∈ Finset.range g.index.length, g.edges s t)
    (hnonneg : ∀ s, s < g.index.length → 0 ≤ g.outbound.getD s 0) :
    (rankStep alpha g r).sum = 1 := by
  have hne : ((g.index.length : ℚ)) ≠ 0 := by
    exact_mod_cast Nat.pos_iff_ne_zero.mp hn
  rw [rankStep, sum_map_range_eq]
  simp only [sum_map_range_eq]
  rw [Finset.sum_add_distrib, Finset.sum_add_distrib, Finset.sum_comm]
  have hmain : ∀ s ∈ Finset.range g.index.length,
      (∑ t ∈ Finset.range g.index.length,
        if 0 < g.outbound.getD s 0 then
          alpha * r.getD s 0 * (g.edges s t / g.outbound.getD s 0) else 0) =
      alpha * (if 0 < g.outbound.getD s 0 then r.getD s 0 else 0) := by
    intro s hs
    by_cases hpos : 0 < g.outbound.getD s 0
    · simp only [if_pos hpos]
      have hc : ∀ t ∈ Finset.range g.index.length,
          alpha * r.getD s 0 * (g.edges s t / g.outbound.getD s 0) =
            alpha * r.getD s 0 / g.outbound.getD s 0 * g.edges s t := by
        intro t _
        ring
      rw [Finset.sum_congr rfl hc, ← Finset.mul_sum,
        ← hout s (Finset.mem_range.mp hs), div_mul_cancel₀ _ hpos.ne']
    · simp only [if_neg hpos, Finset.sum_const_zero]
      ring
  rw [Finset.sum_congr rfl hmain, ← Finset.mul_sum]
  rw [Finset.sum_const, Finset.sum_const, Finset.card_range, nsmul_eq_mul,
    nsmul_eq_mul, rankLeak, sum_map_range_eq]
  have hcomp : ∀ s ∈ Finset.range g.index.length,
      ((if 0 < g.outbound.getD s 0 then r.getD s 0 else 0) +
        (if g.outbound.getD s 0 = 0 then r.getD s 0 else 0)) = r.getD s 0 := by
    intro s hs
    rcases (hnonneg s (Finset.mem_range.mp hs)).lt_or_eq with hlt | heq
    · rw [if_pos hlt, if_neg hlt.ne', add_zero]
    · rw [if_neg (by rw [← heq]; exact lt_irrefl 0), if_pos heq.symm, zero_add]
  have hsum2 : (∑ s ∈ Finset.range g.index.length,
        (if 0 < g.outbound.getD s 0 then r.getD s 0 else 0)) +
      (∑ s ∈ Finset.range g.index.length,
        (if g.outbound.getD s 0 = 0 then r.getD s 0 else 0)) = 1 := by
    rw [← Finset.sum_add_distrib, Finset.sum_congr rfl hcomp, ← hr,
      sum_getD_eq, hsum]
  set X := ∑ s ∈ Finset.range g.index.length,
    (if 0 < g.outbound.getD s 0 then r.getD s 0 else 0) with hX
  set Y := ∑ s ∈ Finset.range g.index.length,
    (if g.outbound.getD s 0 = 0 then r.getD s 0 else 0) with hY
  set N := (g.index.length : ℚ) with hN
  field_simp
  linear_combination alpha * hsum2

/-- C8, amended: every Rank iterate (in particular the ranking vector at
loop exit, whenever the loop exits) sums to exactly one, for every graph
with at least one node whose outbound weights are nonnegative and equal to
the sum of their edge weights; termination, however, does not hold for every
finite graph built by Link calls (see the counterexample). -/
theorem graph_Rank_sum_spec (alpha : ℚ) (g : Graph)
    (hn : 0 < g.index.length)
    (hout : ∀ s, s < g.index.length →
      g.outbound.getD s 0 = ∑ t ∈ Finset.range g.index.length, g.edges s t)
    (hnonneg : ∀ s, s < g.index.length → 0 ≤ g.outbound.getD s 0)
    (k : Nat) :
    (rankIter alpha g k).sum = 1 ∧
      (rankIter alpha g k).length = g.index.length := by
  induction k with
  | zero =>
    constructor
    · show (rankInit g).sum = 1
      rw [rankInit, List.sum_replicate, nsmul_eq_mul]
      have hne : ((g.index.length : ℚ)) ≠ 0 := by
        exact_mod_cast Nat.pos_iff_ne_zero.mp hn
      field_simp
    · show (rankInit g).length = _
      rw [rankInit, List.length_replicate]
  | succ m ih =>
    refine ⟨rankStep_sum_eq_one alpha g _ hn ih.2 ih.1 hout hnonneg, ?_⟩
    show (rankStep _ _ _).length = _
    rw [rankStep, List.length_map, List.length_range]

/-- C8, witness for the amended theorem: the three-node graph after five
iterations. -/
theorem graph_Rank_sum_spec_witness :
    (rankIter 1 g3 5).sum = 1 ∧ (rankIter 1 g3 5).length = g3.index.length :=
  graph_Rank_sum_spec 1 g3 (by rw [g3_len]; norm_num)
    (by
      intro s hs
      rw [g3_len] at hs
      rw [g3_len]
      interval_cases s <;>
        simp [g3_outbound, Finset.sum_range_succ,
          ge00, ge01, ge02, ge10, ge11, ge12, ge20, ge21, ge22])
    (by
      intro s hs
      rw [g3_len] at hs
      interval_cases s <;> simp [g3_outbound])
    5



/-! ### C1: incremental header hasher -/

theorem natDecAux_one (k n : Nat) (hk : 1 ≤ k) :
    natDecAux k n = natDecAux 1 n := by
  obtain ⟨a, rfl⟩ : ∃ a, k = a + 1 := ⟨k - 1, by omega⟩
  rw [natDecAux, show (1 : Nat) = 0 + 1 from rfl, natDecAux]

theorem natDec_unfold (n : Nat) : natDec n =
    if n < 10 then [48 + n] else natDec (n / 10) ++ [48 + n % 10] := by
  rw [natDec, natDecAux]
  by_cases h : n < 10
  · rw [if_pos h, if_pos h]
  · rw [if_neg h, if_neg h, natDecAux_one n (n / 10) (by omega)]
    congr 1
    rw [natDec, natDecAux_one (n / 10 + 1) (n / 10) (by omega)]

theorem natDec_length_lt10 (n : Nat) (h : n < 10) :
    (natDec n).length = 1 := by
  rw [natDec_unfold, if_pos h]
  rfl

theorem natDec_length_ge10 (n : Nat) (h : 10 ≤ n) :
    (natDec n).length = (natDec (n / 10)).length + 1 := by
  rw [natDec_unfold, if_neg (by omega), List.length_append]
  rfl

theorem BUF_CAP_eq : BUF_CAP = 435 := rfl

theorem natDecAux_length_pos (fuel n : Nat) : 1 ≤ (natDecAux (fuel + 1) n).length := by
  rw [natDecAux]
  split_ifs
  · simp
  · simp

theorem decEnc_length_pos (i : Int) : 1 ≤ (decEnc i).length := by
  rw [decEnc]
  split_ifs
  · simp
  · exact natDecAux_length_pos _ _

theorem hexEnc_length (l : List Nat) : (hexEnc l).length = 2 * l.length := by
  induction l with
  | nil => rfl
  | cons b t ih =>
    rw [hexEnc] at ih ⊢
    rw [List.flatMap_cons, List.length_append, ih, List.length_cons]
    simp
    omega

theorem serializeHeader_decomp (h : PlotHeader) :
    serializeHeader h = prefixC h ++ decEnc h.interactionCount ++ hdrEndB := by
  rw [serializeHeader, prefixC, prefixN, segQ]
  simp [List.append_assoc]

theorem prefixN_length (h : PlotHeader) (hwf : wfHeader h) :
    (prefixN h).length = 336 + (decEnc h.time).length := by
  obtain ⟨h1, h2, h3, h4⟩ := hwf
  rw [prefixN]
  simp [hexEnc_length, h1, h2, h3, h4, hdrPreviousB, hdrHashListRootB,
    hdrTimeB, hdrTargetB, hdrThreadWorkB, hdrNonceB, strBytes]
  omega

theorem segQ_length (h : PlotHeader) :
    (segQ h).length = 31 + (decEnc h.height).length := by
  rw [segQ]
  simp [hdrHeightB, hdrInteractionCountB, strBytes]
  omega

theorem prefixC_length (h : PlotHeader) (hwf : wfHeader h) :
    (prefixC h).length = 367 + (decEnc h.time).length +
      (decEnc h.nonce).length + (decEnc h.height).length := by
  rw [prefixC]
  simp [prefixN_length h hwf, segQ_length]
  omega

theorem serializeHeader_length (h : PlotHeader) (hwf : wfHeader h) :
    (serializeHeader h).length = 368 + (decEnc h.time).length +
      (decEnc h.nonce).length + (decEnc h.height).length +
      (decEnc h.interactionCount).length := by
  rw [serializeHeader_decomp]
  simp [prefixC_length h hwf, hdrEndB, strBytes]
  omega

theorem take_writeAt_suffix (buf X D : List Nat) (off : Int) (n : Nat)
    (hoff : off.toNat = n) (hn : n ≤ buf.length) (hX : buf.take n = X) :
    (writeAt buf off D).take (n + D.length) = X ++ D := by
  have hXlen : X.length = n := by
    rw [← hX, List.length_take]
    omega
  rw [writeAt, hoff, hX]
  exact List.take_left' (by rw [List.length_append, hXlen])

theorem take_writeAt_middle (buf X O S D : List Nat) (off : Int) (bufLen : Nat)
    (hoff : off.toNat = X.length) (hb : bufLen ≤ buf.length)
    (hdecomp : buf.take bufLen = X ++ O ++ S) (hOD : O.length = D.length) :
    (writeAt buf off D).take bufLen = X ++ D ++ S := by
  have hlen : bufLen = X.length + O.length + S.length := by
    have := congrArg List.length hdecomp
    simp only [List.length_take, List.length_append] at this
    omega
  have hbuf : buf = (X ++ O) ++ (S ++ buf.drop bufLen) := by
    conv_lhs => rw [← List.take_append_drop bufLen buf]
    rw [hdecomp]
    simp [List.append_assoc]
  have h1 : buf.take X.length = X := by
    have ht : buf.take X.length = (buf.take bufLen).take X.length := by
      rw [List.take_take]
      congr 1
      omega
    rw [ht, hdecomp, List.append_assoc]
    exact List.take_left' rfl
  have h2 : buf.drop (X.length + D.length) = S ++ buf.drop bufLen := by
    conv_lhs => rw [hbuf]
    have he : X.length + D.length = (X ++ O).length := by
      rw [List.length_append]
      omega
    rw [he]
    exact List.drop_left' rfl
  rw [writeAt, hoff, h1, h2, ← List.append_assoc]
  exact List.take_left' (by simp; omega)

theorem drop_writeAt (buf D : List Nat) (off : Int) (k : Nat)
    (hoff : off.toNat ≤ buf.length) (hk : off.toNat + D.length ≤ k) :
    (writeAt buf off D).drop k = buf.drop k := by
  have h1 : (buf.take off.toNat ++ D).length = off.toNat + D.length := by
    rw [List.length_append, List.length_take]
    omega
  have hk2 : k = (buf.take off.toNat ++ D).length + (k - off.toNat - D.length) := by
    omega
  rw [writeAt]
  conv_lhs => rw [hk2]
  rw [List.drop_append, List.drop_drop]
  congr 1
  omega

theorem length_writeAt (buf D : List Nat) (off : Int)
    (hoff : off.toNat ≤ buf.length) :
    (writeAt buf off D).length = max buf.length (off.toNat + D.length) := by
  rw [writeAt]
  simp only [List.length_append, List.length_take, List.length_drop]
  omega

theorem writeAt_writeAt (buf D1 D2 : List Nat) (off : Int) (h0 : 0 ≤ off)
    (h : off.toNat ≤ buf.length) :
    writeAt (writeAt buf off D1) (off + D1.length) D2 =
      writeAt buf off (D1 ++ D2) := by
  have htn : (off + D1.length).toNat = off.toNat + D1.length := by omega
  have h2 : (writeAt buf off D1).take (off.toNat + D1.length) =
      buf.take off.toNat ++ D1 :=
    take_writeAt_suffix buf (buf.take off.toNat) D1 off off.toNat rfl h rfl
  have h3 : (writeAt buf off D1).drop (off.toNat + D1.length + D2.length) =
      buf.drop (off.toNat + D1.length + D2.length) :=
    drop_writeAt buf D1 off _ h (by omega)
  rw [writeAt, htn, h2, h3, writeAt]
  simp only [List.append_assoc, List.length_append]
  rw [show off.toNat + D1.length + D2.length =
    off.toNat + (D1.length + D2.length) from by omega]

theorem hdrPreviousB_length : hdrPreviousB.length = 13 := rfl
theorem hdrHashListRootB_length : hdrHashListRootB.length = 20 := rfl
theorem hdrTimeB_length : hdrTimeB.length = 9 := rfl
theorem hdrTargetB_length : hdrTargetB.length = 11 := rfl
theorem hdrThreadWorkB_length : hdrThreadWorkB.length = 17 := rfl
theorem hdrNonceB_length : hdrNonceB.length = 10 := rfl
theorem hdrHeightB_length : hdrHeightB.length = 10 := rfl
theorem hdrInteractionCountB_length : hdrInteractionCountB.length = 21 := rfl
theorem hdrEndB_length : hdrEndB.length = 1 := rfl

theorem initBuffer_inv (h : PlotHeader) (hwf : wfHeader h) :
    InvHasher (initBuffer h) h := by
  obtain ⟨h1, h2, h3, h4⟩ := hwf
  have hsl := serializeHeader_length h ⟨h1, h2, h3, h4⟩
  rw [InvHasher]
  dsimp only [initBuffer]
  refine ⟨rfl, rfl, rfl, rfl, rfl, ?_, ?_, rfl, ?_, rfl, ?_, rfl, ?_, ?_, ?_⟩
  · simp only [hexEnc_length, h1, hdrPreviousB_length, hdrHashListRootB_length]
    omega
  · simp only [hexEnc_length, h1, h2, hdrPreviousB_length,
      hdrHashListRootB_length, hdrTimeB_length]
    omega
  · simp only [hexEnc_length, h1, h2, h3, h4, hdrPreviousB_length,
      hdrHashListRootB_length, hdrTimeB_length, hdrTargetB_length,
      hdrThreadWorkB_length, hdrNonceB_length]
    omega
  · simp only [hexEnc_length, h1, h2, h3, h4, hdrPreviousB_length,
      hdrHashListRootB_length, hdrTimeB_length, hdrTargetB_length,
      hdrThreadWorkB_length, hdrNonceB_length, hdrHeightB_length,
      hdrInteractionCountB_length]
    omega
  · simp only [hexEnc_length, h1, h2, h3, h4, hdrPreviousB_length,
      hdrHashListRootB_length, hdrTimeB_length, hdrTargetB_length,
      hdrThreadWorkB_length, hdrNonceB_length, hdrHeightB_length,
      hdrInteractionCountB_length, hdrEndB_length]
    omega
  · have hbl : (((hdrPreviousB.length : Int) + ((hexEnc h.previous).length : Int) +
        (hdrHashListRootB.length : Int) + ((hexEnc h.hashListRoot).length : Int) +
        (hdrTimeB.length : Int) + ((decEnc h.time).length : Int) +
        (hdrTargetB.length : Int) + ((hexEnc h.target).length : Int) +
        (hdrThreadWorkB.length : Int) + ((hexEnc h.threadWork).length : Int) +
        (hdrNonceB.length : Int) + ((decEnc h.nonce).length : Int) +
        (hdrHeightB.length : Int) + ((decEnc h.height).length : Int) +
        (hdrInteractionCountB.length : Int) +
        ((decEnc h.interactionCount).length : Int) +
        (hdrEndB.length : Int))).toNat = (serializeHeader h).length := by
      simp only [hexEnc_length, h1, h2, h3, h4, hdrPreviousB_length,
        hdrHashListRootB_length, hdrTimeB_length, hdrTargetB_length,
        hdrThreadWorkB_length, hdrNonceB_length, hdrHeightB_length,
        hdrInteractionCountB_length, hdrEndB_length]
      omega
    rw [hbl, List.take_length]
  · omega

theorem serializeHeader_split_hlr (h : PlotHeader) :
    serializeHeader h =
      (hdrPreviousB ++ hexEnc h.previous ++ hdrHashListRootB) ++
        hexEnc h.hashListRoot ++
        (hdrTimeB ++ decEnc h.time ++ hdrTargetB ++ hexEnc h.target ++
          hdrThreadWorkB ++ hexEnc h.threadWork ++ hdrNonceB ++
          decEnc h.nonce ++ segQ h ++ decEnc h.interactionCount ++
          hdrEndB) := by
  rw [serializeHeader, segQ]
  simp [List.append_assoc]

theorem serializeHeader_split_time (h : PlotHeader) :
    serializeHeader h =
      (hdrPreviousB ++ hexEnc h.previous ++ hdrHashListRootB ++
          hexEnc h.hashListRoot ++ hdrTimeB) ++
        decEnc h.time ++
        (hdrTargetB ++ hexEnc h.target ++ hdrThreadWorkB ++
          hexEnc h.threadWork ++ hdrNonceB ++ decEnc h.nonce ++ segQ h ++
          decEnc h.interactionCount ++ hdrEndB) := by
  rw [serializeHeader, segQ]
  simp [List.append_assoc]

theorem serializeHeader_split_nonce (h : PlotHeader) :
    serializeHeader h =
      prefixN h ++ decEnc h.nonce ++
        (segQ h ++ decEnc h.interactionCount ++ hdrEndB) := by
  rw [serializeHeader, segQ, prefixN]
  simp [List.append_assoc]

theorem wfHeader_mut (h : PlotHeader) (m : HeaderMutation)
    (hwf : wfHeader h) (hm : m.hashListRoot.length = 32) :
    wfHeader (applyMutation h m) := by
  obtain ⟨h1, h2, h3, h4⟩ := hwf
  exact ⟨h1, hm, h3, h4⟩

theorem hlrStep_inv (s : PlotHeaderHasher) (h h' : PlotHeader)
    (hInv : InvHasher s h) (hwf : wfHeader h)
    (hwf' : h'.hashListRoot.length = 32) :
    InvHasher (hlrStep s h') { h with hashListRoot := h'.hashListRoot } := by
  obtain ⟨hw1, hw2, hw3, hw4⟩ := hwf
  obtain ⟨i1, i2, i3, i4, i5, i6, i7, i8, i9, i10, i11, i12, i13, i14, i15⟩ :=
    hInv
  have hwf2 : wfHeader { h with hashListRoot := h'.hashListRoot } :=
    ⟨hw1, hwf', hw3, hw4⟩
  have hsl := serializeHeader_length h ⟨hw1, hw2, hw3, hw4⟩
  have hhex : (hexEnc h'.hashListRoot).length = 64 := by
    rw [hexEnc_length, hwf']
  rw [hlrStep]
  by_cases hc : s.previousHashListRoot = h'.hashListRoot
  · rw [if_neg (by simpa using hc)]
    have he : ({ h with hashListRoot := h'.hashListRoot } : PlotHeader) = h := by
      rw [← hc, i2]
    rw [he]
    exact ⟨i1, i2, i3, i4, i5, i6, i7, i8, i9, i10, i11, i12, i13, i14, i15⟩
  · rw [if_pos hc]
    have hlen2 : (serializeHeader { h with hashListRoot := h'.hashListRoot }).length =
        (serializeHeader h).length := by
      rw [serializeHeader_length _ hwf2, serializeHeader_length _ ⟨hw1, hw2, hw3, hw4⟩]
    have hXlen : ((hdrPreviousB ++ hexEnc h.previous ++ hdrHashListRootB)).length = 97 := by
      simp [hexEnc_length, hw1, hdrPreviousB_length, hdrHashListRootB_length]
  -- the buffer take fact
    have htake : (writeAt s.buffer s.hashListRootOffset
          (hexEnc h'.hashListRoot)).take ((serializeHeader h).length) =
        serializeHeader { h with hashListRoot := h'.hashListRoot } := by
      have hmid := take_writeAt_middle s.buffer
        (hdrPreviousB ++ hexEnc h.previous ++ hdrHashListRootB)
        (hexEnc h.hashListRoot)
        (hdrTimeB ++ decEnc h.time ++ hdrTargetB ++ hexEnc h.target ++
          hdrThreadWorkB ++ hexEnc h.threadWork ++ hdrNonceB ++
          decEnc h.nonce ++ segQ h ++ decEnc h.interactionCount ++ hdrEndB)
        (hexEnc h'.hashListRoot)
        s.hashListRootOffset ((serializeHeader h).length)
        (by rw [i6, hXlen]; rfl)
        i15
        (by
          have : s.bufLen.toNat = (serializeHeader h).length := by omega
          rw [← this, i14, serializeHeader_split_hlr])
        (by rw [hexEnc_length, hexEnc_length, hw2, hwf'])
      rw [hmid, serializeHeader_split_hlr]
      simp [segQ]
    refine ⟨i1, rfl, i3, i4, i5, i6, i7, i8, i9, i10, i11, i12, ?_, ?_, ?_⟩
    · rw [hlen2]
      exact i13
    · have : s.bufLen.toNat = (serializeHeader h).length := by omega
      simp only [this]
      exact htake
    · rw [hlen2]
      have hl := length_writeAt s.buffer (hexEnc h'.hashListRoot)
        s.hashListRootOffset (by omega)
      simp only [hl]
      omega

theorem take_drop_of_take (buf P S : List Nat) (n : Nat)
    (hn : n ≤ buf.length) (hdecomp : buf.take n = P ++ S) :
    (buf.drop P.length).take (n - P.length) = S := by
  have hlen : n = P.length + S.length := by
    have := congrArg List.length hdecomp
    simp only [List.length_take, List.length_append] at this
    omega
  have hbuf : buf = P ++ (S ++ buf.drop n) := by
    conv_lhs => rw [← List.take_append_drop n buf]
    rw [hdecomp, List.append_assoc]
  have hdrop : buf.drop P.length = S ++ buf.drop n := by
    conv_lhs => rw [hbuf]
    exact List.drop_left' rfl
  rw [hdrop]
  have he : n - P.length = S.length := by omega
  rw [he]
  exact List.take_left' rfl

set_option maxHeartbeats 1600000 in
theorem timeStep_inv (s : PlotHeaderHasher) (h h' : PlotHeader)
    (hInv : InvHasher s h) (hwf : wfHeader h)
    (htg : h'.target = h.target) (htw : h'.threadWork = h.threadWork) :
    ((timeStep s h').2 = 0 ∧
      InvHasher (timeStep s h').1 { h with time := h'.time }) ∨
    ((timeStep s h').2 ≠ 0 ∧
      PShiftN (timeStep s h').1 { h with time := h'.time }
        (timeStep s h').2) := by
  obtain ⟨hw1, hw2, hw3, hw4⟩ := hwf
  obtain ⟨i1, i2, i3, i4, i5, i6, i7, i8, i9, i10, i11, i12, i13, i14, i15⟩ :=
    hInv
  have hsl := serializeHeader_length h ⟨hw1, hw2, hw3, hw4⟩
  have hT2 : ({ h with time := h'.time } : PlotHeader).time = h'.time := rfl
  rw [timeStep]
  by_cases hc : s.previousTime = h'.time
  · rw [if_neg (by simpa using hc)]
    left
    have he : ({ h with time := h'.time } : PlotHeader) = h := by
      rw [← hc, i3]
    rw [he]
    exact ⟨rfl, i1, i2, i3, i4, i5, i6, i7, i8, i9, i10, i11, i12, i13, i14, i15⟩
  · rw [if_pos hc]
    have hwfT : wfHeader { h with time := h'.time } := ⟨hw1, hw2, hw3, hw4⟩
    have hslT := serializeHeader_length { h with time := h'.time } hwfT
    by_cases hz : ((decEnc h'.time).length : Int) - s.timeLen = 0
    · rw [if_neg (by simpa using hz)]
      left
      refine ⟨hz, i1, i2, rfl, i4, i5, i6, i7, rfl, ?_, i10, ?_, i12, ?_, ?_, ?_⟩
      · dsimp only
        omega
      · dsimp only
        omega
      · dsimp only
        dsimp only at hslT
        omega
      · have hXlen : (hdrPreviousB ++ hexEnc h.previous ++ hdrHashListRootB ++
            hexEnc h.hashListRoot ++ hdrTimeB).length = 170 := by
          simp [hexEnc_length, hw1, hw2, hdrPreviousB_length,
            hdrHashListRootB_length, hdrTimeB_length]
        have hb : s.bufLen.toNat = (serializeHeader h).length := by omega
        have hmid := take_writeAt_middle s.buffer
          (hdrPreviousB ++ hexEnc h.previous ++ hdrHashListRootB ++
            hexEnc h.hashListRoot ++ hdrTimeB)
          (decEnc h.time)
          (hdrTargetB ++ hexEnc h.target ++ hdrThreadWorkB ++
            hexEnc h.threadWork ++ hdrNonceB ++ decEnc h.nonce ++ segQ h ++
            decEnc h.interactionCount ++ hdrEndB)
          (decEnc h'.time)
          s.timeOffset ((serializeHeader h).length)
          (by rw [i7, hXlen]; rfl)
          i15
          (by rw [← hb, i14, serializeHeader_split_time])
          (by omega)
        dsimp only
        rw [hb, hmid, serializeHeader_split_time]
        rfl
      · have hl := length_writeAt s.buffer (decEnc h'.time) s.timeOffset
          (by omega)
        dsimp only
        rw [hl]
        dsimp only at hslT
        omega
    · rw [if_pos (by simpa using hz)]
      right
      have hM : (hdrTargetB ++ hexEnc h'.target ++ hdrThreadWorkB ++
          hexEnc h'.threadWork ++ hdrNonceB).length = 166 := by
        simp [hexEnc_length, htg, htw, hw3, hw4, hdrTargetB_length,
          hdrThreadWorkB_length, hdrNonceB_length]
      have hcoll : writeAt (writeAt s.buffer s.timeOffset (decEnc h'.time))
          (s.timeOffset + ((decEnc h'.time).length : Int))
          (hdrTargetB ++ hexEnc h'.target ++ hdrThreadWorkB ++
            hexEnc h'.threadWork ++ hdrNonceB) =
          writeAt s.buffer s.timeOffset
            (decEnc h'.time ++ (hdrTargetB ++ hexEnc h'.target ++
              hdrThreadWorkB ++ hexEnc h'.threadWork ++ hdrNonceB)) :=
        writeAt_writeAt s.buffer (decEnc h'.time) _ s.timeOffset (by omega)
          (by omega)
      have hX : s.buffer.take 170 = hdrPreviousB ++ hexEnc h.previous ++
          hdrHashListRootB ++ hexEnc h.hashListRoot ++ hdrTimeB := by
        have hXlen : (hdrPreviousB ++ hexEnc h.previous ++ hdrHashListRootB ++
            hexEnc h.hashListRoot ++ hdrTimeB).length = 170 := by
          simp [hexEnc_length, hw1, hw2, hdrPreviousB_length,
            hdrHashListRootB_length, hdrTimeB_length]
        have ht : s.buffer.take 170 = (s.buffer.take s.bufLen.toNat).take 170 := by
          rw [List.take_take, Nat.min_eq_left (by omega)]
        rw [ht, i14, serializeHeader_split_time, List.append_assoc]
        exact List.take_left' hXlen
      have hDlen : (decEnc h'.time ++ (hdrTargetB ++ hexEnc h'.target ++
          hdrThreadWorkB ++ hexEnc h'.threadWork ++ hdrNonceB)).length =
          (decEnc h'.time).length + 166 := by
        rw [List.length_append, hM]
      have hsuf := take_writeAt_suffix s.buffer
        (hdrPreviousB ++ hexEnc h.previous ++ hdrHashListRootB ++
          hexEnc h.hashListRoot ++ hdrTimeB)
        (decEnc h'.time ++ (hdrTargetB ++ hexEnc h'.target ++
          hdrThreadWorkB ++ hexEnc h'.threadWork ++ hdrNonceB))
        s.timeOffset 170 (by omega) (by omega) hX
      refine ⟨(by simpa using hz), i1, i2, rfl, i4, i5, i6, i7, rfl, ?_, i10,
        ?_, i12, ?_, ?_, ?_, ?_, ?_⟩
      · dsimp only
        omega
      · dsimp only
        omega
      · dsimp only
        omega
      · dsimp only
        rw [hcoll]
        rw [show 336 + (decEnc ({ h with time := h'.time} : PlotHeader).time).length =
          170 + (decEnc h'.time ++ (hdrTargetB ++ hexEnc h'.target ++
            hdrThreadWorkB ++ hexEnc h'.threadWork ++ hdrNonceB)).length from by
          rw [hDlen]
          dsimp only
          omega]
        rw [hsuf, prefixN]
        dsimp only
        rw [htg, htw]
        simp [List.append_assoc]
      · dsimp only
        rw [hcoll]
        have hl := length_writeAt s.buffer
          (decEnc h'.time ++ (hdrTargetB ++ hexEnc h'.target ++
            hdrThreadWorkB ++ hexEnc h'.threadWork ++ hdrNonceB))
          s.timeOffset (by omega)
        rw [hl, hDlen]
        omega
      · -- suffix beyond the nonce run survives when the shift stays within it
        intro hoq
        dsimp only at hoq ⊢
        rw [hcoll]
        have hPlen : (prefixN h ++ decEnc h.nonce).length =
            336 + (decEnc h.time).length + (decEnc h.nonce).length := by
          rw [List.length_append, prefixN_length h ⟨hw1, hw2, hw3, hw4⟩]
        have hdw := drop_writeAt s.buffer
          (decEnc h'.time ++ (hdrTargetB ++ hexEnc h'.target ++
            hdrThreadWorkB ++ hexEnc h'.threadWork ++ hdrNonceB))
          s.timeOffset ((s.nonceOffset + s.nonceLen).toNat)
          (by omega) (by rw [hDlen]; omega)
        rw [show (s.nonceOffset + s.nonceLen).toNat =
          (prefixN h ++ decEnc h.nonce).length from by rw [hPlen]; omega]
        rw [show (s.nonceOffset + s.nonceLen).toNat =
          (prefixN h ++ decEnc h.nonce).length from by rw [hPlen]; omega] at hdw
        rw [hdw]
        have htd := take_drop_of_take s.buffer (prefixN h ++ decEnc h.nonce)
          (segQ h ++ decEnc h.interactionCount ++ hdrEndB)
          ((serializeHeader h).length) i15
          (by
            have hb : s.bufLen.toNat = (serializeHeader h).length := by omega
            rw [← hb, i14, serializeHeader_split_nonce, List.append_assoc])
        rw [show (s.bufLen - (s.nonceOffset + s.nonceLen)).toNat =
          (serializeHeader h).length - (prefixN h ++ decEnc h.nonce).length from by
          rw [hPlen]
          omega]
        rw [htd]
        rfl
      · -- the closing brace survives when the shift stays inside the line
        intro hoe
        dsimp only at hoe ⊢
        rw [hcoll]
        have hPlen : (prefixC h ++ decEnc h.interactionCount).length =
            367 + (decEnc h.time).length + (decEnc h.nonce).length +
              (decEnc h.height).length + (decEnc h.interactionCount).length := by
          rw [List.length_append, prefixC_length h ⟨hw1, hw2, hw3, hw4⟩]
        have hdw := drop_writeAt s.buffer
          (decEnc h'.time ++ (hdrTargetB ++ hexEnc h'.target ++
            hdrThreadWorkB ++ hexEnc h'.threadWork ++ hdrNonceB))
          s.timeOffset ((s.bufLen - 1).toNat)
          (by omega) (by rw [hDlen]; omega)
        rw [show (s.bufLen - 1).toNat =
          (prefixC h ++ decEnc h.interactionCount).length from by
          rw [hPlen]; omega]
        rw [show (s.bufLen - 1).toNat =
          (prefixC h ++ decEnc h.interactionCount).length from by
          rw [hPlen]; omega] at hdw
        rw [hdw]
        have htd := take_drop_of_take s.buffer
          (prefixC h ++ decEnc h.interactionCount) hdrEndB
          ((serializeHeader h).length) i15
          (by
            have hb : s.bufLen.toNat = (serializeHeader h).length := by omega
            rw [← hb, i14, serializeHeader_decomp, List.append_assoc])
        rw [show (1 : Nat) =
          (serializeHeader h).length -
            (prefixC h ++ decEnc h.interactionCount).length from by
          rw [hPlen]; omega]
        exact htd

set_option maxHeartbeats 1600000 in
theorem nonceStep_inv (s : PlotHeaderHasher) (h h' : PlotHeader) (offIn : Int)
    (hwf : wfHeader h) (hhe : h'.height = h.height)
    (hent : (offIn = 0 ∧ InvHasher s h) ∨ (offIn ≠ 0 ∧ PShiftN s h offIn)) :
    ((nonceStep s h' offIn).2 = 0 ∧
      InvHasher (nonceStep s h' offIn).1 { h with nonce := h'.nonce }) ∨
    ((nonceStep s h' offIn).2 ≠ 0 ∧
      PShiftC (nonceStep s h' offIn).1 { h with nonce := h'.nonce }
        (nonceStep s h' offIn).2) := by
  obtain ⟨hw1, hw2, hw3, hw4⟩ := hwf
  have hsl := serializeHeader_length h ⟨hw1, hw2, hw3, hw4⟩
  have hslN := serializeHeader_length { h with nonce := h'.nonce }
    ⟨hw1, hw2, hw3, hw4⟩
  dsimp only at hslN
  have hnp' := decEnc_length_pos h'.nonce
  have hnp := decEnc_length_pos h.nonce
  have hcp := decEnc_length_pos h.interactionCount
  rw [nonceStep]
  rcases hent with ⟨hoz, hInv⟩ | ⟨honz, hSh⟩
  · obtain ⟨i1, i2, i3, i4, i5, i6, i7, i8, i9, i10, i11, i12, i13, i14, i15⟩ :=
      hInv
    subst hoz
    by_cases hc : s.previousNonce = h'.nonce
    · rw [if_neg (by simp [hc])]
      left
      have he : ({ h with nonce := h'.nonce } : PlotHeader) = h := by
        rw [← hc, i4]
      rw [he]
      exact ⟨rfl, i1, i2, i3, i4, i5, i6, i7, i8, i9, i10, i11, i12, i13, i14,
        i15⟩
    · rw [if_pos (Or.inr hc)]
      by_cases hz : (0 : Int) + (((decEnc h'.nonce).length : Int) -
          s.nonceLen) = 0
      · rw [if_neg (by simpa using hz)]
        left
        refine ⟨hz, i1, i2, i3, rfl, i5, i6, i7, i8, ?_, rfl, ?_, i12, ?_,
          ?_, ?_⟩
        · dsimp only
          omega
        · dsimp only
          omega
        · dsimp only
          omega
        · have hb : s.bufLen.toNat = (serializeHeader h).length := by omega
          have hmid := take_writeAt_middle s.buffer (prefixN h)
            (decEnc h.nonce)
            (segQ h ++ decEnc h.interactionCount ++ hdrEndB)
            (decEnc h'.nonce)
            (s.nonceOffset + 0) ((serializeHeader h).length)
            (by rw [prefixN_length h ⟨hw1, hw2, hw3, hw4⟩]; omega)
            i15
            (by rw [← hb, i14, serializeHeader_split_nonce])
            (by omega)
          dsimp only
          rw [hb, hmid, serializeHeader_split_nonce]
          rfl
        · have hl := length_writeAt s.buffer (decEnc h'.nonce)
            (s.nonceOffset + 0) (by omega)
          dsimp only
          rw [hl]
          omega
      · rw [if_pos (by simpa using hz)]
        right
        have hQlen : (hdrHeightB ++ decEnc h'.height ++
            hdrInteractionCountB).length = 31 + (decEnc h.height).length := by
          rw [hhe]
          simp [hdrHeightB_length, hdrInteractionCountB_length]
          omega
        have hcoll : writeAt (writeAt s.buffer (s.nonceOffset + 0)
              (decEnc h'.nonce))
            (s.nonceOffset + 0 + ((decEnc h'.nonce).length : Int))
            (hdrHeightB ++ decEnc h'.height ++ hdrInteractionCountB) =
            writeAt s.buffer (s.nonceOffset + 0)
              (decEnc h'.nonce ++ (hdrHeightB ++ decEnc h'.height ++
                hdrInteractionCountB)) :=
          writeAt_writeAt s.buffer (decEnc h'.nonce) _ (s.nonceOffset + 0)
            (by omega) (by omega)
        have hX : s.buffer.take (336 + (decEnc h.time).length) =
            prefixN h := by
          have ht : s.buffer.take (336 + (decEnc h.time).length) =
              (s.buffer.take s.bufLen.toNat).take
                (336 + (decEnc h.time).length) := by
            rw [List.take_take, Nat.min_eq_left (by omega)]
          rw [ht, i14, serializeHeader_split_nonce, List.append_assoc]
          exact List.take_left' (prefixN_length h ⟨hw1, hw2, hw3, hw4⟩)
        have hDlen : (decEnc h'.nonce ++ (hdrHeightB ++ decEnc h'.height ++
            hdrInteractionCountB)).length =
            (decEnc h'.nonce).length + (31 + (decEnc h.height).length) := by
          rw [List.length_append, hQlen]
        have hsuf := take_writeAt_suffix s.buffer (prefixN h)
          (decEnc h'.nonce ++ (hdrHeightB ++ decEnc h'.height ++
            hdrInteractionCountB))
          (s.nonceOffset + 0) (336 + (decEnc h.time).length)
          (by omega) (by omega) hX
        refine ⟨(by simpa using hz), i1, i2, i3, rfl, i5, i6, i7, i8, ?_,
          rfl, ?_, i12, ?_, ?_, ?_, ?_⟩
        · dsimp only
          omega
        · dsimp only
          omega
        · dsimp only
          omega
        · dsimp only
          rw [hcoll]
          rw [show 367 + (decEnc ({ h with nonce := h'.nonce} :
                PlotHeader).time).length +
              (decEnc ({ h with nonce := h'.nonce} : PlotHeader).nonce).length +
              (decEnc ({ h with nonce := h'.nonce} : PlotHeader).height).length =
              (336 + (decEnc h.time).length) +
              (decEnc h'.nonce ++ (hdrHeightB ++ decEnc h'.height ++
                hdrInteractionCountB)).length from by
            rw [hDlen]
            dsimp only
            omega]
          rw [hsuf, hhe]
          simp [prefixC, prefixN, segQ, List.append_assoc]
        · dsimp only
          rw [hcoll]
          have hl := length_writeAt s.buffer
            (decEnc h'.nonce ++ (hdrHeightB ++ decEnc h'.height ++
              hdrInteractionCountB))
            (s.nonceOffset + 0) (by omega)
          rw [hl, hDlen]
          omega
        · intro hoe
          dsimp only at hoe ⊢
          rw [hcoll]
          have hPlen : (prefixC h ++ decEnc h.interactionCount).length =
              367 + (decEnc h.time).length + (decEnc h.nonce).length +
                (decEnc h.height).length +
                (decEnc h.interactionCount).length := by
            rw [List.length_append, prefixC_length h ⟨hw1, hw2, hw3, hw4⟩]
          have hdw := drop_writeAt s.buffer
            (decEnc h'.nonce ++ (hdrHeightB ++ decEnc h'.height ++
              hdrInteractionCountB))
            (s.nonceOffset + 0) ((s.bufLen - 1).toNat)
            (by omega) (by rw [hDlen]; omega)
          rw [show (s.bufLen - 1).toNat =
            (prefixC h ++ decEnc h.interactionCount).length from by
            rw [hPlen]; omega]
          rw [show (s.bufLen - 1).toNat =
            (prefixC h ++ decEnc h.interactionCount).length from by
            rw [hPlen]; omega] at hdw
          rw [hdw]
          have htd := take_drop_of_take s.buffer
            (prefixC h ++ decEnc h.interactionCount) hdrEndB
            ((serializeHeader h).length) i15
            (by
              have hb : s.bufLen.toNat = (serializeHeader h).length := by
                omega
              rw [← hb, i14, serializeHeader_decomp, List.append_assoc])
          rw [show (1 : Nat) =
            (serializeHeader h).length -
              (prefixC h ++ decEnc h.interactionCount).length from by
            rw [hPlen]; omega]
          exact htd
  · obtain ⟨p1, p2, p3, p4, p5, p6, p7, p8, p9, p10, p11, p12, p13, p14, p15,
      p16, p17⟩ := hSh
    rw [if_pos (Or.inl honz)]
    by_cases hz : offIn + (((decEnc h'.nonce).length : Int) -
        s.nonceLen) = 0
    · rw [if_neg (by simpa using hz)]
      left
      have hq := p16 (by omega)
      have hlq := congrArg List.length hq
      simp only [List.length_take, List.length_drop, List.length_append,
        segQ_length, hdrEndB_length] at hlq
      refine ⟨hz, p1, p2, p3, rfl, p5, p6, p7, p8, ?_, rfl, ?_, p12, ?_, ?_,
        ?_⟩
      · dsimp only
        omega
      · dsimp only
        omega
      · dsimp only
        omega
      · dsimp only
        have hsuf := take_writeAt_suffix s.buffer (prefixN h)
          (decEnc h'.nonce) (s.nonceOffset + offIn)
          (336 + (decEnc h.time).length) (by omega) (by omega) p14
        have hdw := drop_writeAt s.buffer (decEnc h'.nonce)
          (s.nonceOffset + offIn)
          ((336 + (decEnc h.time).length) + (decEnc h'.nonce).length)
          (by omega) (by omega)
        rw [show s.bufLen.toNat =
          ((336 + (decEnc h.time).length) + (decEnc h'.nonce).length) +
            (32 + (decEnc h.height).length +
              (decEnc h.interactionCount).length) from by omega]
        rw [List.take_add, hsuf, hdw]
        rw [show (336 + (decEnc h.time).length) + (decEnc h'.nonce).length =
          (s.nonceOffset + s.nonceLen).toNat from by omega]
        rw [show 32 + (decEnc h.height).length +
            (decEnc h.interactionCount).length =
          (s.bufLen - (s.nonceOffset + s.nonceLen)).toNat from by omega]
        rw [hq, serializeHeader_split_nonce]
        dsimp only
        simp [prefixN, segQ, List.append_assoc]
      · have hl := length_writeAt s.buffer (decEnc h'.nonce)
          (s.nonceOffset + offIn) (by omega)
        dsimp only
        rw [hl]
        omega
    · rw [if_pos (by simpa using hz)]
      right
      have hQlen : (hdrHeightB ++ decEnc h'.height ++
          hdrInteractionCountB).length = 31 + (decEnc h.height).length := by
        rw [hhe]
        simp [hdrHeightB_length, hdrInteractionCountB_length]
        omega
      have hDlen : (decEnc h'.nonce ++ (hdrHeightB ++ decEnc h'.height ++
          hdrInteractionCountB)).length =
          (decEnc h'.nonce).length + (31 + (decEnc h.height).length) := by
        rw [List.length_append, hQlen]
      have hcoll : writeAt (writeAt s.buffer (s.nonceOffset + offIn)
            (decEnc h'.nonce))
          (s.nonceOffset + offIn + ((decEnc h'.nonce).length : Int))
          (hdrHeightB ++ decEnc h'.height ++ hdrInteractionCountB) =
          writeAt s.buffer (s.nonceOffset + offIn)
            (decEnc h'.nonce ++ (hdrHeightB ++ decEnc h'.height ++
              hdrInteractionCountB)) :=
        writeAt_writeAt s.buffer (decEnc h'.nonce) _ (s.nonceOffset + offIn)
          (by omega) (by omega)
      have hsuf := take_writeAt_suffix s.buffer (prefixN h)
        (decEnc h'.nonce ++ (hdrHeightB ++ decEnc h'.height ++
          hdrInteractionCountB))
        (s.nonceOffset + offIn) (336 + (decEnc h.time).length)
        (by omega) (by omega) p14
      refine ⟨(by simpa using hz), p1, p2, p3, rfl, p5, p6, p7, p8, ?_, rfl,
        ?_, p12, ?_, ?_, ?_, ?_⟩
      · dsimp only
        omega
      · dsimp only
        omega
      · dsimp only
        omega
      · dsimp only
        rw [hcoll]
        rw [show 367 + (decEnc ({ h with nonce := h'.nonce} :
              PlotHeader).time).length +
            (decEnc ({ h with nonce := h'.nonce} : PlotHeader).nonce).length +
            (decEnc ({ h with nonce := h'.nonce} : PlotHeader).height).length =
            (336 + (decEnc h.time).length) +
            (decEnc h'.nonce ++ (hdrHeightB ++ decEnc h'.height ++
              hdrInteractionCountB)).length from by
          rw [hDlen]
          dsimp only
          omega]
        rw [hsuf, hhe]
        simp [prefixC, prefixN, segQ, List.append_assoc]
      · dsimp only
        rw [hcoll]
        have hl := length_writeAt s.buffer
          (decEnc h'.nonce ++ (hdrHeightB ++ decEnc h'.height ++
            hdrInteractionCountB))
          (s.nonceOffset + offIn) (by omega)
        rw [hl, hDlen]
        omega
      · intro hoe
        dsimp only at hoe ⊢
        rw [hcoll]
        have hp17 := p17 (by omega)
        have hdw := drop_writeAt s.buffer
          (decEnc h'.nonce ++ (hdrHeightB ++ decEnc h'.height ++
            hdrInteractionCountB))
          (s.nonceOffset + offIn) ((s.bufLen - 1).toNat)
          (by omega) (by rw [hDlen]; omega)
        rw [hdw]
        exact hp17

set_option maxHeartbeats 1600000 in
theorem countStep_inv (s : PlotHeaderHasher) (h h' : PlotHeader) (offIn : Int)
    (hwf : wfHeader h)
    (hent : (offIn = 0 ∧ InvHasher s h) ∨ (offIn ≠ 0 ∧ PShiftC s h offIn)) :
    InvHasher { (countStep s h' offIn).1 with
        bufLen := (countStep s h' offIn).1.bufLen + (countStep s h' offIn).2 }
      { h with interactionCount := h'.interactionCount } := by
  obtain ⟨hw1, hw2, hw3, hw4⟩ := hwf
  have hsl := serializeHeader_length h ⟨hw1, hw2, hw3, hw4⟩
  have hslC := serializeHeader_length
    { h with interactionCount := h'.interactionCount } ⟨hw1, hw2, hw3, hw4⟩
  dsimp only at hslC
  have hcp' := decEnc_length_pos h'.interactionCount
  have hcp := decEnc_length_pos h.interactionCount
  rw [countStep]
  rcases hent with ⟨hoz, hInv⟩ | ⟨honz, hSh⟩
  · obtain ⟨i1, i2, i3, i4, i5, i6, i7, i8, i9, i10, i11, i12, i13, i14, i15⟩ :=
      hInv
    subst hoz
    by_cases hc : s.previousInteractionCount = h'.interactionCount
    · rw [if_neg (by simp [hc])]
      have he : ({ h with interactionCount := h'.interactionCount } :
          PlotHeader) = h := by
        rw [← hc, i5]
      rw [he]
      refine ⟨i1, i2, i3, i4, i5, i6, i7, i8, i9, i10, i11, i12, ?_, ?_, i15⟩
      · dsimp only
        omega
      · dsimp only
        rw [show (s.bufLen + 0).toNat = s.bufLen.toNat from by omega]
        exact i14
    · rw [if_pos (Or.inr hc)]
      by_cases hz : (0 : Int) + (((decEnc h'.interactionCount).length : Int) -
          s.txCountLen) = 0
      · rw [if_neg (by simpa using hz)]
        refine ⟨i1, i2, i3, i4, rfl, i6, i7, i8, i9, i10, ?_, rfl, ?_, ?_,
          ?_⟩
        · dsimp only
          omega
        · dsimp only
          omega
        · have hb : (s.bufLen + (0 + (((decEnc h'.interactionCount).length :
              Int) - s.txCountLen))).toNat = (serializeHeader h).length := by
            omega
          have hmid := take_writeAt_middle s.buffer (prefixC h)
            (decEnc h.interactionCount) hdrEndB
            (decEnc h'.interactionCount)
            (s.interactionCountOffset + 0) ((serializeHeader h).length)
            (by rw [prefixC_length h ⟨hw1, hw2, hw3, hw4⟩]; omega)
            i15
            (by
              have hb2 : s.bufLen.toNat = (serializeHeader h).length := by
                omega
              rw [← hb2, i14, serializeHeader_decomp])
            (by omega)
          dsimp only
          rw [hb, hmid, serializeHeader_decomp]
          rfl
        · have hl := length_writeAt s.buffer (decEnc h'.interactionCount)
            (s.interactionCountOffset + 0) (by omega)
          dsimp only
          rw [hl]
          omega
      · rw [if_pos (by simpa using hz)]
        have hcoll : writeAt (writeAt s.buffer (s.interactionCountOffset + 0)
              (decEnc h'.interactionCount))
            (s.interactionCountOffset + 0 +
              ((decEnc h'.interactionCount).length : Int)) hdrEndB =
            writeAt s.buffer (s.interactionCountOffset + 0)
              (decEnc h'.interactionCount ++ hdrEndB) :=
          writeAt_writeAt s.buffer (decEnc h'.interactionCount) _
            (s.interactionCountOffset + 0) (by omega) (by omega)
        have hX : s.buffer.take (367 + (decEnc h.time).length +
            (decEnc h.nonce).length + (decEnc h.height).length) =
            prefixC h := by
          have ht : s.buffer.take (367 + (decEnc h.time).length +
              (decEnc h.nonce).length + (decEnc h.height).length) =
              (s.buffer.take s.bufLen.toNat).take
                (367 + (decEnc h.time).length + (decEnc h.nonce).length +
                  (decEnc h.height).length) := by
            rw [List.take_take, Nat.min_eq_left (by omega)]
          rw [ht, i14, serializeHeader_decomp, List.append_assoc]
          exact List.take_left' (prefixC_length h ⟨hw1, hw2, hw3, hw4⟩)
        have hDlen : (decEnc h'.interactionCount ++ hdrEndB).length =
            (decEnc h'.interactionCount).length + 1 := by
          rw [List.length_append, hdrEndB_length]
        have hsuf := take_writeAt_suffix s.buffer (prefixC h)
          (decEnc h'.interactionCount ++ hdrEndB)
          (s.interactionCountOffset + 0)
          (367 + (decEnc h.time).length + (decEnc h.nonce).length +
            (decEnc h.height).length)
          (by omega) (by omega) hX
        refine ⟨i1, i2, i3, i4, rfl, i6, i7, i8, i9, i10, ?_, rfl, ?_, ?_,
          ?_⟩
        · dsimp only
          omega
        · dsimp only
          omega
        · dsimp only
          rw [hcoll]
          rw [show (s.bufLen + (0 + (((decEnc h'.interactionCount).length :
              Int) - s.txCountLen))).toNat =
              (367 + (decEnc h.time).length + (decEnc h.nonce).length +
                (decEnc h.height).length) +
              (decEnc h'.interactionCount ++ hdrEndB).length from by
            rw [hDlen]
            omega]
          rw [hsuf, serializeHeader_decomp]
          simp [prefixC, prefixN, segQ, List.append_assoc]
        · dsimp only
          rw [hcoll]
          have hl := length_writeAt s.buffer
            (decEnc h'.interactionCount ++ hdrEndB)
            (s.interactionCountOffset + 0) (by omega)
          rw [hl, hDlen]
          omega
  · obtain ⟨p1, p2, p3, p4, p5, p6, p7, p8, p9, p10, p11, p12, p13, p14, p15,
      p16⟩ := hSh
    rw [if_pos (Or.inl honz)]
    by_cases hz : offIn + (((decEnc h'.interactionCount).length : Int) -
        s.txCountLen) = 0
    · rw [if_neg (by simpa using hz)]
      have hp16 := p16 (by omega)
      have hlq := congrArg List.length hp16
      simp only [List.length_take, List.length_drop, hdrEndB_length] at hlq
      refine ⟨p1, p2, p3, p4, rfl, p6, p7, p8, p9, p10, ?_, rfl, ?_, ?_, ?_⟩
      · dsimp only
        omega
      · dsimp only
        omega
      · dsimp only
        have hsuf := take_writeAt_suffix s.buffer (prefixC h)
          (decEnc h'.interactionCount) (s.interactionCountOffset + offIn)
          (367 + (decEnc h.time).length + (decEnc h.nonce).length +
            (decEnc h.height).length)
          (by omega) (by omega) p14
        have hdw := drop_writeAt s.buffer (decEnc h'.interactionCount)
          (s.interactionCountOffset + offIn)
          ((367 + (decEnc h.time).length + (decEnc h.nonce).length +
            (decEnc h.height).length) +
            (decEnc h'.interactionCount).length)
          (by omega) (by omega)
        rw [show (s.bufLen + (offIn + (((decEnc h'.interactionCount).length :
            Int) - s.txCountLen))).toNat =
            ((367 + (decEnc h.time).length + (decEnc h.nonce).length +
              (decEnc h.height).length) +
              (decEnc h'.interactionCount).length) + 1 from by omega]
        rw [List.take_add, hsuf, hdw]
        rw [show (367 + (decEnc h.time).length + (decEnc h.nonce).length +
            (decEnc h.height).length) +
            (decEnc h'.interactionCount).length =
          (s.bufLen - 1).toNat from by omega]
        rw [hp16, serializeHeader_decomp]
        simp [prefixC, prefixN, segQ, List.append_assoc]
      · have hl := length_writeAt s.buffer (decEnc h'.interactionCount)
          (s.interactionCountOffset + offIn) (by omega)
        dsimp only
        rw [hl]
        omega
    · rw [if_pos (by simpa using hz)]
      have hcoll : writeAt (writeAt s.buffer
            (s.interactionCountOffset + offIn)
            (decEnc h'.interactionCount))
          (s.interactionCountOffset + offIn +
            ((decEnc h'.interactionCount).length : Int)) hdrEndB =
          writeAt s.buffer (s.interactionCountOffset + offIn)
            (decEnc h'.interactionCount ++ hdrEndB) :=
        writeAt_writeAt s.buffer (decEnc h'.interactionCount) _
          (s.interactionCountOffset + offIn) (by omega) (by omega)
      have hDlen : (decEnc h'.interactionCount ++ hdrEndB).length =
          (decEnc h'.interactionCount).length + 1 := by
        rw [List.length_append, hdrEndB_length]
      have hsuf := take_writeAt_suffix s.buffer (prefixC h)
        (decEnc h'.interactionCount ++ hdrEndB)
        (s.interactionCountOffset + offIn)
        (367 + (decEnc h.time).length + (decEnc h.nonce).length +
          (decEnc h.height).length)
        (by omega) (by omega) p14
      refine ⟨p1, p2, p3, p4, rfl, p6, p7, p8, p9, p10, ?_, rfl, ?_, ?_, ?_⟩
      · dsimp only
        omega
      · dsimp only
        omega
      · dsimp only
        rw [hcoll]
        rw [show (s.bufLen + (offIn + (((decEnc h'.interactionCount).length :
            Int) - s.txCountLen))).toNat =
            (367 + (decEnc h.time).length + (decEnc h.nonce).length +
              (decEnc h.height).length) +
            (decEnc h'.interactionCount ++ hdrEndB).length from by
          rw [hDlen]
          omega]
        rw [hsuf, serializeHeader_decomp]
        simp [prefixC, prefixN, segQ, List.append_assoc]
      · dsimp only
        rw [hcoll]
        have hl := length_writeAt s.buffer
          (decEnc h'.interactionCount ++ hdrEndB)
          (s.interactionCountOffset + offIn) (by omega)
        rw [hl, hDlen]
        omega

theorem updateState_inv (s : PlotHeaderHasher) (h : PlotHeader)
    (m : HeaderMutation) (hInv : InvHasher s h) (hwf : wfHeader h)
    (hm : m.hashListRoot.length = 32) :
    InvHasher (updateState s (applyMutation h m)) (applyMutation h m) := by
  obtain ⟨hw1, hw2, hw3, hw4⟩ := hwf
  have h1 := hlrStep_inv s h (applyMutation h m) hInv ⟨hw1, hw2, hw3, hw4⟩
    hm
  have h2 := timeStep_inv (hlrStep s (applyMutation h m))
    { h with hashListRoot := m.hashListRoot } (applyMutation h m) h1
    ⟨hw1, hm, hw3, hw4⟩ rfl rfl
  have h3 := nonceStep_inv
    (timeStep (hlrStep s (applyMutation h m)) (applyMutation h m)).1
    { h with hashListRoot := m.hashListRoot
             time := m.time }
    (applyMutation h m)
    (timeStep (hlrStep s (applyMutation h m)) (applyMutation h m)).2
    ⟨hw1, hm, hw3, hw4⟩ rfl h2
  have h4 := countStep_inv
    (nonceStep
      (timeStep (hlrStep s (applyMutation h m)) (applyMutation h m)).1
      (applyMutation h m)
      (timeStep (hlrStep s (applyMutation h m)) (applyMutation h m)).2).1
    { h with hashListRoot := m.hashListRoot
             time := m.time
             nonce := m.nonce }
    (applyMutation h m)
    (nonceStep
      (timeStep (hlrStep s (applyMutation h m)) (applyMutation h m)).1
      (applyMutation h m)
      (timeStep (hlrStep s (applyMutation h m)) (applyMutation h m)).2).2
    ⟨hw1, hm, hw3, hw4⟩ h3
  rw [updateState]
  rw [if_neg (by
    have hinit : s.initialized = true := hInv.1
    simp [hinit])]
  exact h4

theorem runHasher_aux (t : List HeaderMutation) :
    ∀ (s : PlotHeaderHasher) (h : PlotHeader), InvHasher s h → wfHeader h →
    (∀ mu ∈ t, mu.hashListRoot.length = 32) →
    InvHasher (t.foldl (fun sh m =>
        (updateState sh.1 (applyMutation sh.2 m), applyMutation sh.2 m))
      (s, h)).1
      (t.foldl (fun sh m =>
        (updateState sh.1 (applyMutation sh.2 m), applyMutation sh.2 m))
      (s, h)).2 ∧
    wfHeader (t.foldl (fun sh m =>
        (updateState sh.1 (applyMutation sh.2 m), applyMutation sh.2 m))
      (s, h)).2 := by
  induction t with
  | nil =>
    intro s h hi hw _
    exact ⟨hi, hw⟩
  | cons m t ih =>
    intro s h hi hw hm
    rw [List.foldl_cons]
    exact ih _ _
      (updateState_inv s h m hi hw (hm m (List.mem_cons_self m t)))
      (wfHeader_mut h m hw (hm m (List.mem_cons_self m t)))
      (fun mu hmu => hm mu (List.mem_cons_of_mem m hmu))

theorem runHasher_inv (h0 : PlotHeader) (muts : List HeaderMutation)
    (hwf0 : wfHeader h0)
    (hmuts : ∀ mu ∈ muts, mu.hashListRoot.length = 32) :
    InvHasher (runHasher h0 muts).1 (runHasher h0 muts).2 ∧
      wfHeader (runHasher h0 muts).2 := by
  rw [runHasher]
  exact runHasher_aux muts (updateState NewPlotHeaderHasher h0) h0
    (initBuffer_inv h0 hwf0) hwf0 hmuts

/-- C1 counterexample: at the minimal int64/int32 field values the header
serializes to 439 bytes, past the 435-byte buffer NewPlotHeaderHasher
preallocates, and Update panics at the hash step instead of returning a
value. -/
theorem plotHeaderHasher_Update_overflow_counterexample :
    hdrOver.time = -(2 ^ 63) ∧ hdrOver.nonce = -(2 ^ 63) ∧
    hdrOver.height = -(2 ^ 63) ∧ hdrOver.interactionCount = -(2 ^ 31) ∧
    wfHeader hdrOver ∧ BUF_CAP = 435 ∧
    (serializeHeader hdrOver).length = 439 ∧
    PlotHeaderHasher.Update idFn NewPlotHeaderHasher hdrOver = none := by
  have hwf : wfHeader hdrOver := ⟨rfl, rfl, rfl, rfl⟩
  have h64 : (decEnc (-(2 ^ 63) : Int)).length = 20 := by
    rw [decEnc, if_pos (by norm_num)]
    rw [show (-(-(2 ^ 63) : Int)).toNat = 9223372036854775808 from rfl]
    simp [natDec_unfold]
  have h32 : (decEnc (-(2 ^ 31) : Int)).length = 11 := by
    rw [decEnc, if_pos (by norm_num)]
    rw [show (-(-(2 ^ 31) : Int)).toNat = 2147483648 from rfl]
    simp [natDec_unfold]
  have hlen : (serializeHeader hdrOver).length = 439 := by
    rw [serializeHeader_length hdrOver hwf]
    rw [show hdrOver.time = -(2 ^ 63) from rfl,
      show hdrOver.nonce = -(2 ^ 63) from rfl,
      show hdrOver.height = -(2 ^ 63) from rfl,
      show hdrOver.interactionCount = -(2 ^ 31) from rfl, h64, h32]
  refine ⟨rfl, rfl, rfl, rfl, hwf, rfl, hlen, ?_⟩
  rw [PlotHeaderHasher.Update]
  rw [show updateState NewPlotHeaderHasher hdrOver = initBuffer hdrOver
    from rfl]
  obtain ⟨_, _, _, _, _, _, _, _, _, _, _, _, c13, _, _⟩ :=
    initBuffer_inv hdrOver hwf
  rw [if_neg (by rw [c13, hlen, BUF_CAP_eq]; decide)]

/-- C1 (amended): Go preallocates exactly BUF_CAP = 435 buffer bytes,
enough for every serialization whose four decimal runs total at most 67
bytes (always true when the numeric fields are non-negative). For every
run in which every reached header fits that capacity, each
PlotHeaderHasher.Update returns the same 256-bit integer as hashing the
full canonical serialization of the current header (PlotHeader.ID read
big-endian), and after each Update the buffer prefix of length bufLen is
that serialization. A header whose serialization exceeds the capacity
makes Update panic instead (see the counterexample), so the original
unrestricted claim fails. -/
theorem plotHeaderHasher_Update_equiv (hash32 : List Nat → List Nat)
    (h0 : PlotHeader) (muts : List HeaderMutation) (m : HeaderMutation)
    (hwf0 : wfHeader h0)
    (hmuts : ∀ mu ∈ muts, mu.hashListRoot.length = 32)
    (hm : m.hashListRoot.length = 32)
    (hfit : ∀ hh ∈ runHeaders h0 muts,
      (serializeHeader hh).length ≤ BUF_CAP)
    (hfitm : (serializeHeader
      (applyMutation (runHasher h0 muts).2 m)).length ≤ BUF_CAP) :
    (PlotHeaderHasher.Update hash32 NewPlotHeaderHasher h0).map Prod.snd =
        some (getBigInt (headerID hash32 h0)) ∧
    (runHasher h0 muts).1.buffer.take (runHasher h0 muts).1.bufLen.toNat =
        serializeHeader (runHasher h0 muts).2 ∧
    (PlotHeaderHasher.Update hash32 (runHasher h0 muts).1
        (applyMutation (runHasher h0 muts).2 m)).map Prod.snd =
      some (getBigInt (headerID hash32
        (applyMutation (runHasher h0 muts).2 m))) := by
  have hfit0 : (serializeHeader h0).length ≤ BUF_CAP :=
    hfit h0 (by cases muts <;> simp [runHeaders])
  obtain ⟨hInv, hwfF⟩ := runHasher_inv h0 muts hwf0 hmuts
  refine ⟨?_, ?_, ?_⟩
  · obtain ⟨_, _, _, _, _, _, _, _, _, _, _, _, c13, c14, _⟩ :=
      initBuffer_inv h0 hwf0
    rw [PlotHeaderHasher.Update]
    rw [show updateState NewPlotHeaderHasher h0 = initBuffer h0 from rfl]
    rw [if_pos (by rw [c13]; exact_mod_cast hfit0)]
    simp only [Option.map_some']
    rw [c14, headerID]
  · obtain ⟨_, _, _, _, _, _, _, _, _, _, _, _, _, c14, _⟩ := hInv
    exact c14
  · obtain ⟨_, _, _, _, _, _, _, _, _, _, _, _, c13, c14, _⟩ :=
      updateState_inv (runHasher h0 muts).1 (runHasher h0 muts).2 m hInv
        hwfF hm
    rw [PlotHeaderHasher.Update]
    rw [if_pos (by rw [c13]; exact_mod_cast hfitm)]
    simp only [Option.map_some']
    rw [c14, headerID]

/-- Witness for C1 at a concrete header, mutation list and extra mutation
that all fit the buffer, with the identity as the hash function. -/
theorem plotHeaderHasher_Update_equiv_witness :
    (wfHeader hdrW ∧ (∀ mu ∈ [mutW], mu.hashListRoot.length = 32) ∧
      mutW2.hashListRoot.length = 32 ∧
      (∀ hh ∈ runHeaders hdrW [mutW],
        (serializeHeader hh).length ≤ BUF_CAP) ∧
      (serializeHeader
          (applyMutation (runHasher hdrW [mutW]).2 mutW2)).length ≤
        BUF_CAP) ∧
    ((PlotHeaderHasher.Update idFn NewPlotHeaderHasher hdrW).map Prod.snd =
        some (getBigInt (headerID idFn hdrW)) ∧
      (runHasher hdrW [mutW]).1.buffer.take
          (runHasher hdrW [mutW]).1.bufLen.toNat =
        serializeHeader (runHasher hdrW [mutW]).2 ∧
      (PlotHeaderHasher.Update idFn (runHasher hdrW [mutW]).1
          (applyMutation (runHasher hdrW [mutW]).2 mutW2)).map Prod.snd =
        some (getBigInt (headerID idFn
          (applyMutation (runHasher hdrW [mutW]).2 mutW2)))) := by
  have hW : (serializeHeader hdrW).length = 372 := by
    rw [serializeHeader_length hdrW ⟨rfl, rfl, rfl, rfl⟩]
    rw [show decEnc hdrW.time = natDec 5 from rfl,
      show decEnc hdrW.nonce = natDec 7 from rfl,
      show decEnc hdrW.height = natDec 3 from rfl,
      show decEnc hdrW.interactionCount = natDec 2 from rfl]
    rw [natDec_length_lt10 5 (by omega), natDec_length_lt10 7 (by omega),
      natDec_length_lt10 3 (by omega), natDec_length_lt10 2 (by omega)]
  have l60 : (natDec 60).length = 2 := by
    rw [natDec_length_ge10 60 (by omega), show (60 / 10 : Nat) = 6 from rfl,
      natDec_length_lt10 6 (by omega)]
  have l800 : (natDec 800).length = 3 := by
    rw [natDec_length_ge10 800 (by omega),
      show (800 / 10 : Nat) = 80 from rfl,
      natDec_length_ge10 80 (by omega), show (80 / 10 : Nat) = 8 from rfl,
      natDec_length_lt10 8 (by omega)]
  have l11 : (natDec 11).length = 2 := by
    rw [natDec_length_ge10 11 (by omega), show (11 / 10 : Nat) = 1 from rfl,
      natDec_length_lt10 1 (by omega)]
  have l40 : (natDec 40).length = 2 := by
    rw [natDec_length_ge10 40 (by omega), show (40 / 10 : Nat) = 4 from rfl,
      natDec_length_lt10 4 (by omega)]
  have hM : (serializeHeader (applyMutation hdrW mutW)).length = 375 := by
    rw [serializeHeader_length (applyMutation hdrW mutW)
      ⟨rfl, rfl, rfl, rfl⟩]
    rw [show decEnc (applyMutation hdrW mutW).time = natDec 60 from rfl,
      show decEnc (applyMutation hdrW mutW).nonce = natDec 800 from rfl,
      show decEnc (applyMutation hdrW mutW).height = natDec 3 from rfl,
      show decEnc (applyMutation hdrW mutW).interactionCount = natDec 3
        from rfl]
    rw [l60, l800, natDec_length_lt10 3 (by omega)]
  have hM2 : (serializeHeader
      (applyMutation (applyMutation hdrW mutW) mutW2)).length = 374 := by
    rw [serializeHeader_length (applyMutation (applyMutation hdrW mutW)
      mutW2) ⟨rfl, rfl, rfl, rfl⟩]
    rw [show decEnc (applyMutation (applyMutation hdrW mutW) mutW2).time =
        natDec 7 from rfl,
      show decEnc (applyMutation (applyMutation hdrW mutW) mutW2).nonce =
        natDec 11 from rfl,
      show decEnc (applyMutation (applyMutation hdrW mutW) mutW2).height =
        natDec 3 from rfl,
      show decEnc (applyMutation (applyMutation hdrW mutW)
        mutW2).interactionCount = natDec 40 from rfl]
    rw [l11, l40, natDec_length_lt10 3 (by omega),
      natDec_length_lt10 7 (by omega)]
  have hfitW : ∀ hh ∈ runHeaders hdrW [mutW],
      (serializeHeader hh).length ≤ BUF_CAP := by
    intro hh hm
    simp only [runHeaders, List.mem_cons, List.not_mem_nil, or_false] at hm
    rw [BUF_CAP_eq]
    rcases hm with rfl | rfl
    · rw [hW]
      omega
    · rw [hM]
      omega
  have hfitmW : (serializeHeader
      (applyMutation (runHasher hdrW [mutW]).2 mutW2)).length ≤
      BUF_CAP := by
    rw [show (runHasher hdrW [mutW]).2 = applyMutation hdrW mutW from rfl]
    rw [hM2, BUF_CAP_eq]
    omega
  exact ⟨⟨⟨rfl, rfl, rfl, rfl⟩, by decide, by decide, hfitW, hfitmW⟩,
    plotHeaderHasher_Update_equiv idFn hdrW [mutW] mutW2
      ⟨rfl, rfl, rfl, rfl⟩ (by decide) (by decide) hfitW hfitmW⟩

end PlotThread
